import Mathlib

/-!
Verification development for the H3C table-extractor repository.

The Python sources under `src/core` and `src/scripts` are shallowly embedded
below.  Python strings are Lean `String`s (substring scans work on the
underlying `List Char`), Python dicts are insertion-ordered association lists
with first-key lookup and replace-in-place update, which matches CPython's
dict semantics for the unique-key dicts built by the code.  Regular
expressions that the code only uses through `re.search`-truthiness are
embedded as exact backtracking token matchers over the pattern's literal
structure; regexes whose captured group is used are embedded as dedicated
scanners equivalent to the Python pattern (leftmost match, greedy groups).
Only `str.lower` on ASCII letters is modelled, which covers every string the
code lowercases before comparing against its ASCII keyword tables.
-/

set_option maxRecDepth 20000

/-- ASCII lower-casing of one character, as `str.lower` acts on the ASCII
keywords this code compares against. -/
def lowerChar (c : Char) : Char :=
  if 'A' ≤ c && c ≤ 'Z' then Char.ofNat (c.toNat + 32) else c

def lowerL (s : List Char) : List Char := s.map lowerChar

def lowerS (s : String) : String := String.mk (lowerL s.data)

/-- Python `str.isspace` / regex `\s` character class (ASCII part). -/
def isSpacePy (c : Char) : Bool :=
  c = ' ' || c = '\t' || c = '\n' || c = '\r' || c = '\x0b' || c = '\x0c'

def isDigitC (c : Char) : Bool := '0' ≤ c && c ≤ '9'

/-- Regex `\w` (ASCII part): letters, digits, underscore. -/
def isWordC (c : Char) : Bool :=
  ('a' ≤ c && c ≤ 'z') || ('A' ≤ c && c ≤ 'Z') || isDigitC c || c = '_'

/-- Python's substring operator `needle in hay`. -/
def containsSub : List Char → List Char → Bool
  | needle, [] => needle.isEmpty
  | needle, c :: rest => needle.isPrefixOf (c :: rest) || containsSub needle rest

def strSub (needle hay : String) : Bool := containsSub needle.data hay.data

/-- Python `s.startswith(pre)`. -/
def pyStartsWith (s pre : String) : Bool := pre.data.isPrefixOf s.data

/-- Python `s.startswith(tuple)`. -/
def startsAny (s : String) (ps : List String) : Bool := ps.any (pyStartsWith s)

/-- Python `str.strip()`. -/
def trimL (s : List Char) : List Char :=
  ((s.dropWhile isSpacePy).reverse.dropWhile isSpacePy).reverse

def pyStrip (s : String) : String := String.mk (trimL s.data)

/-- Python `sep.join(parts)`. -/
def joinWith (sep : String) : List String → String
  | [] => ""
  | [x] => x
  | x :: y :: xs => x ++ sep ++ joinWith sep (y :: xs)

def natOfDigits (ds : List Char) : Nat :=
  ds.foldl (fun a c => a * 10 + (c.toNat - 48)) 0

/-- Anchored `re.match(r'(\d+)', s)`: the maximal leading digit run. -/
def leadingNat (s : List Char) : Option Nat :=
  let ds := s.takeWhile isDigitC
  if ds.isEmpty then none else some (natOfDigits ds)

/-- Python `s.split(sep)` on the underlying characters. -/
def pySplit (sep : Char) (s : String) : List String :=
  (s.data.splitOn sep).map String.mk

/- ### Insertion-ordered dictionaries (CPython dict semantics) -/

/-- Lookup: first entry with the key (keys are unique for dicts built by the
embedded code, mirroring Python). -/
def dictGet? {β : Type} : List (String × β) → String → Option β
  | [], _ => none
  | (k0, v) :: rest, k => if k0 = k then some v else dictGet? rest k

/-- `d[k] = v`: replace in place if present (keeping insertion position),
else append — CPython dict assignment. -/
def dictSet {β : Type} : List (String × β) → String → β → List (String × β)
  | [], k, v => [(k, v)]
  | (k0, v0) :: rest, k, v =>
    if k0 = k then (k0, v) :: rest else (k0, v0) :: dictSet rest k v

/-- `d.update(e)`. -/
def dictUpdate {β : Type} (d e : List (String × β)) : List (String × β) :=
  e.foldl (fun acc kv => dictSet acc kv.1 kv.2) d

/-- `del d[k]`. -/
def dictDel {β : Type} (d : List (String × β)) (k : String) : List (String × β) :=
  d.filter (fun kv => kv.1 != k)

def containsKey {β : Type} (d : List (String × β)) (k : String) : Bool :=
  (dictGet? d k).isSome

/-- `for k in d: d[k] = g(k, d[k])` — per-entry value transformation that
keeps keys and their order. -/
def mapEntries {β : Type} (g : String → β → β) (d : List (String × β)) :
    List (String × β) :=
  d.map (fun kv => (kv.1, g kv.1 kv.2))

/-- A cell value in an extraction result: Python `str` or `int`. -/
inductive SpecValue
  | s (v : String)
  | n (v : Nat)
deriving DecidableEq, Repr

def SpecValue.render : SpecValue → String
  | .s v => v
  | .n v => toString v

abbrev Specs := List (String × SpecValue)
abbrev ModelMap := List (String × Specs)
abbrev Row := List (String × String)

/- ### Dictionary lemmas -/

theorem dictGet?_dictSet_self {β : Type} (d : List (String × β)) (k : String) (v : β) :
    dictGet? (dictSet d k v) k = some v := by
  induction d with
  | nil => simp [dictSet, dictGet?]
  | cons kv rest ih =>
    obtain ⟨k0, v0⟩ := kv
    by_cases h : k0 = k <;> simp [dictSet, dictGet?, h, ih]

theorem dictGet?_dictSet_ne {β : Type} (d : List (String × β)) (k k2 : String) (v : β)
    (h : k2 ≠ k) : dictGet? (dictSet d k v) k2 = dictGet? d k2 := by
  induction d with
  | nil => simp [dictSet, dictGet?, Ne.symm h]
  | cons kv rest ih =>
    obtain ⟨k0, v0⟩ := kv
    by_cases h0 : k0 = k
    · subst h0
      simp [dictSet, dictGet?, Ne.symm h]
    · simp [dictSet, dictGet?, h0, ih]

theorem containsKey_dictSet {β : Type} (d : List (String × β)) (k k2 : String) (v : β)
    (h : containsKey d k2 = true) : containsKey (dictSet d k v) k2 = true := by
  by_cases hk : k2 = k
  · subst hk; simp [containsKey, dictGet?_dictSet_self]
  · simpa [containsKey, dictGet?_dictSet_ne d k k2 v hk] using h

/-- Keys absent from the update payload keep their value. -/
theorem dictGet?_dictUpdate_notMem {β : Type} (d e : List (String × β)) (k : String)
    (h : ∀ kv ∈ e, kv.1 ≠ k) : dictGet? (dictUpdate d e) k = dictGet? d k := by
  induction e generalizing d with
  | nil => simp [dictUpdate]
  | cons kv rest ih =>
    have hkv : kv.1 ≠ k := h kv (by simp)
    have hrest : ∀ kv2 ∈ rest, kv2.1 ≠ k := fun kv2 hm => h kv2 (by simp [hm])
    show dictGet? (dictUpdate (dictSet d kv.1 kv.2) rest) k = dictGet? d k
    rw [ih _ hrest, dictGet?_dictSet_ne d kv.1 k kv.2 (fun h2 => hkv h2.symm)]

theorem containsKey_dictUpdate {β : Type} (d e : List (String × β)) (k : String)
    (h : containsKey d k = true) : containsKey (dictUpdate d e) k = true := by
  induction e generalizing d with
  | nil => simpa [dictUpdate]
  | cons kv rest ih =>
    show containsKey (dictUpdate (dictSet d kv.1 kv.2) rest) k = true
    exact ih _ (containsKey_dictSet d kv.1 k kv.2 h)

/-- If the payload's keys are unique and carry `(k, v)`, updating writes `v`. -/
theorem dictGet?_dictUpdate_mem {β : Type} (d e : List (String × β)) (k : String) (v : β)
    (hnd : (e.map Prod.fst).Nodup) (h : dictGet? e k = some v) :
    dictGet? (dictUpdate d e) k = some v := by
  induction e generalizing d with
  | nil => simp [dictGet?] at h
  | cons kv rest ih =>
    obtain ⟨k0, v0⟩ := kv
    simp only [List.map_cons, List.nodup_cons] at hnd
    by_cases hk : k0 = k
    · subst hk
      have hv : v0 = v := by simpa [dictGet?] using h
      subst hv
      show dictGet? (dictUpdate (dictSet d k0 v0) rest) k0 = some v0
      have hne : ∀ kv2 ∈ rest, kv2.1 ≠ k0 := by
        intro kv2 hm heq
        exact hnd.1 (heq ▸ List.mem_map_of_mem Prod.fst hm)
      rw [dictGet?_dictUpdate_notMem _ _ _ hne, dictGet?_dictSet_self]
    · simp only [dictGet?, if_neg hk] at h
      show dictGet? (dictUpdate (dictSet d k0 v0) rest) k = some v
      exact ih (dictSet d k0 v0) hnd.2 h

theorem dictGet?_none_of_not_mem {β : Type} (e : List (String × β)) (k : String)
    (h : dictGet? e k = none) : ∀ kv ∈ e, kv.1 ≠ k := by
  induction e with
  | nil => simp
  | cons kv rest ih =>
    intro kv2 hm
    simp only [dictGet?] at h
    by_cases hk : kv.1 = k
    · simp [hk] at h
    · rcases List.mem_cons.mp hm with h2 | h2
      · subst h2; exact hk
      · exact ih (by simpa [hk] using h) kv2 h2

theorem dictGet?_dictDel_ne {β : Type} (d : List (String × β)) (k k2 : String)
    (h : k2 ≠ k) : dictGet? (dictDel d k) k2 = dictGet? d k2 := by
  induction d with
  | nil => rfl
  | cons kv rest ih =>
    obtain ⟨k0, v0⟩ := kv
    by_cases hk : k0 = k
    · subst hk
      simp only [dictDel, List.filter_cons] at ih ⊢
      simp [dictGet?, Ne.symm h, ih]
    · simp only [dictDel, List.filter_cons] at ih ⊢
      by_cases hk2 : k0 = k2 <;> simp [dictGet?, hk2, hk, h, ih]

theorem dictGet?_mapEntries {β : Type} (g : String → β → β) (d : List (String × β))
    (k : String) : dictGet? (mapEntries g d) k = (dictGet? d k).map (g k) := by
  induction d with
  | nil => simp [mapEntries, dictGet?]
  | cons kv rest ih =>
    by_cases hk : kv.1 = k
    · simp [mapEntries, dictGet?, hk]
    · simpa [mapEntries, dictGet?, hk] using ih

theorem keys_mapEntries {β : Type} (g : String → β → β) (d : List (String × β)) :
    (mapEntries g d).map Prod.fst = d.map Prod.fst := by
  induction d with
  | nil => rfl
  | cons kv rest ih => simp [mapEntries]

/- ### A small exact matcher for the regex fragments the code searches with.
Each pattern is a list of alternative branches; a branch is a token sequence.
`matchToks` implements full backtracking over `ws`/`opt`/`alts`, so it agrees
with Python `re` on these patterns, and `searchToks` is `re.search`
truthiness (match at any start position). -/

inductive RTok
  | lit (cs : List Char)
  | ws
  | opt (cs : List Char)
  | alts (css : List (List Char))
  | nla (c : Char)

def leadWs (s : List Char) : Nat := (s.takeWhile isSpacePy).length

def matchToks : List RTok → List Char → Bool
  | [], _ => true
  | .lit cs :: ts, s => cs.isPrefixOf s && matchToks ts (s.drop cs.length)
  | .ws :: ts, s => (List.range (leadWs s + 1)).any (fun j => matchToks ts (s.drop j))
  | .opt cs :: ts, s =>
    (cs.isPrefixOf s && matchToks ts (s.drop cs.length)) || matchToks ts s
  | .alts css :: ts, s =>
    css.any (fun cs => cs.isPrefixOf s && matchToks ts (s.drop cs.length))
  | .nla c :: ts, s =>
    (match s with | [] => true | d :: _ => d != c) && matchToks ts s

def searchToks (branches : List (List RTok)) (s : List Char) : Bool :=
  s.tails.any (fun suf => branches.any (fun b => matchToks b suf))

def tokL (s : String) : RTok := .lit s.data

/- ### DirectTableExtractor (src/scripts/direct_extractor.py) -/

/-- `DirectTableExtractor.skip_patterns` — each pattern is a regex with no
metacharacters, so `re.search` is a plain substring test. -/
def skipPatterns : List String :=
  ["removable", "power supply model", "psu model",
   "board support", "card support", "是否支持",
   "电源模块型号", "可移除"]

/-- `DirectTableExtractor._should_skip_param`. -/
def shouldSkipParam (param : String) : Bool :=
  let pl := lowerL param.data
  skipPatterns.any (fun p => containsSub p.data pl)

/-- `DirectTableExtractor._detect_table_type`. -/
def detectTableType (text : String) : String :=
  let tl := lowerL text.data
  if containsSub "organization".data tl &&
      (["ieee", "rfc", "standard"].any (fun x => containsSub x.data tl)) then
    "protocols"
  else if containsSub "standards and protocols".data tl then
    "protocols"
  else if (["poe power capacity", "total poe power", "802.3af", "802.3at"].any
        (fun x => containsSub x.data tl)) && containsSub "quantity".data tl then
    "poe"
  else if ["entries", "mac address entries", "vlan table", "routing entries",
      "arp entries"].any (fun x => containsSub x.data tl) then
    "performance"
  else if ["vlan", "routing protocol", "security feature", "layer 2",
      "layer 3"].any (fun x => containsSub x.data tl) then
    "software"
  else if ["ieee", "rfc", "standard", "compliance"].any
      (fun x => containsSub x.data tl) then
    "protocols"
  else if ["mac address", "forwarding rate", "routing table"].any
      (fun x => containsSub x.data tl) then
    "performance"
  else
    "hardware"

/-- The ordered pattern → canonical-name table of
`DirectTableExtractor._normalize_param_name`, with each regex transcribed
into matcher branches. -/
def normalizeMappings : List (List (List RTok) × String) :=
  [ ([[tokL "power", .ws, tokL "consumption"], [tokL "功耗"], [tokL "功率"]], "功耗"),
    ([[tokL "input", .ws, tokL "voltage"], [tokL "额定电压"], [tokL "输入电压"]], "输入电压"),
    ([[tokL "switching", .ws, tokL "capacity"], [tokL "交换容量"]], "交换容量"),
    ([[tokL "forwarding", .ws, .alts ["rate".data, "capacity".data]],
      [tokL "包转发率"], [tokL "转发容量"]], "包转发率"),
    ([[tokL "mac", .ws, tokL "address"], [tokL "mac地址"], [tokL "mac表"]], "MAC地址表"),
    ([[tokL "dimension"], [tokL "尺寸"], [tokL "外形尺寸"]], "尺寸"),
    ([[tokL "weight"], [tokL "重量"]], "重量"),
    ([[tokL "temperature"], [tokL "工作温度"]], "工作温度"),
    ([[tokL "humidity"], [tokL "工作湿度"], [tokL "湿度"]], "工作湿度"),
    ([[tokL "mtbf"], [tokL "平均无故障"]], "MTBF"),
    ([[tokL "mttr"], [tokL "平均修复"]], "MTTR"),
    ([[tokL "power", .ws, tokL "supply", .ws, tokL "slot", .opt "s".data],
      [tokL "电源槽位"], [tokL "电源数量"], [tokL "电源槽"]], "电源槽位数"),
    ([[tokL "fan", .ws, .alts ["num".data, "number".data, "quantity".data]],
      [tokL "风扇槽位"], [tokL "风扇数量"], [tokL "风扇槽"], [tokL "fan num"]], "风扇数量"),
    ([[tokL "console"], [tokL "console口"], [tokL "串口"], [tokL "console port"]], "Console口"),
    ([[tokL "usb"], [tokL "usb口"], [tokL "usb port"]], "USB口"),
    ([[tokL "management"], [tokL "管理口"], [tokL "网管口"], [tokL "management port"]], "管理网口"),
    ([[tokL "flash"], [tokL "flash内存"]], "Flash"),
    ([[tokL "sdram"], [tokL "内存"], [tokL "sdram"]], "SDRAM"),
    ([[tokL "cpu"], [tokL "处理器"]], "CPU"),
    ([[tokL "latency"], [tokL "时延"], [tokL "延迟"], [tokL "latency"]], "延迟"),
    ([[tokL "packet", .ws, tokL "buffer"], [tokL "包缓存"], [tokL "报文缓存"]], "包缓存"),
    ([[tokL "jumbo", .ws, tokL "frame"], [tokL "巨帧"]], "巨帧"),
    ([[tokL "buffer"], [tokL "缓存"], [tokL "缓冲区"]], "缓存"),
    ([[tokL "base-t", .ws, tokL "port"], [tokL "电口"], [tokL "以太网口"]], "电口数量"),
    ([[tokL "sfp+", .ws, tokL "port"], [tokL "sfp+", .ws, tokL "光口"]], "SFP+端口数"),
    ([[tokL "sfp", .nla '+', .ws, tokL "port"],
      [tokL "sfp", .nla '+', .ws, tokL "光口"]], "SFP端口数"),
    ([[tokL "sfp28", .ws, tokL "port"], [tokL "sfp28", .ws, tokL "光口"]], "SFP28端口数"),
    ([[tokL "qsfp+", .ws, tokL "port"], [tokL "qsfp+", .ws, tokL "光口"]], "QSFP+端口数"),
    ([[tokL "qsfp", .nla '+', .ws, tokL "port"],
      [tokL "qsfp", .nla '+', .ws, tokL "光口"]], "QSFP端口数"),
    ([[tokL "qsfp28", .ws, tokL "port"], [tokL "qsfp28", .ws, tokL "光口"]], "QSFP28端口数"),
    ([[tokL "multigiga"], [tokL "multi-giga"], [tokL "2.5g"], [tokL "5g"],
      [tokL "多速率"]], "MultiGiga端口数"),
    ([[tokL "maximum", .ws, tokL "stacking", .ws, tokL "bandwidth"],
      [tokL "堆叠带宽"], [tokL "最大堆叠带宽"]], "最大堆叠带宽"),
    ([[tokL "maximum", .ws, tokL "stacking", .ws, tokL "num"],
      [tokL "堆叠数量"], [tokL "最大堆叠数"]], "最大堆叠数") ]

/-- `DirectTableExtractor._normalize_param_name`: first matching pattern in
table order wins, unmapped names yield `None`. -/
def normalizeParamName (param : String) : Option String :=
  let pl := lowerL param.data
  (normalizeMappings.find? (fun pc => searchToks pc.1 pl)).map Prod.snd

/-- Python `s.replace(needle, repl)`: left-to-right, non-overlapping. -/
def replaceAllL (needle repl : List Char) (s : List Char) : List Char :=
  match s with
  | [] => []
  | c :: rest =>
    if !needle.isEmpty && needle.isPrefixOf (c :: rest) then
      repl ++ replaceAllL needle repl (rest.drop (needle.length - 1))
    else
      c :: replaceAllL needle repl rest
termination_by s.length
decreasing_by
  · simp only [List.length_cons, List.length_drop]
    omega
  · simp

def pyReplace (s needle repl : String) : String :=
  String.mk (replaceAllL needle.data repl.data s.data)

/- ### Table structure (src/scripts/direct_extractor.py `_parse_table_structure`).
A table element is embedded as its visible text plus the cell texts of its
header row and the `(text, colspan)` cells of each data row; extracting those
from the HTML tree is BeautifulSoup plumbing outside this core. -/

structure Cell where
  text : String
  colspan : Nat
deriving DecidableEq, Repr

structure PTable where
  text : String
  headerCells : List String
  dataRows : List (List Cell)
deriving DecidableEq, Repr

/-- Inner loop of the direct extractor's row parser: cell `i` writes its text
under headers `i .. i+colspan-1` (bounded by the header count). -/
def parseRowDirectAux (headers : List String) : Nat → List Cell → Row → Row
  | _, [], rd => rd
  | i, c :: cs, rd =>
    let rd2 :=
      if i < headers.length then
        (List.range c.colspan).foldl
          (fun acc j =>
            match headers.get? (i + j) with
            | some h => dictSet acc h c.text
            | none => acc) rd
      else rd
    parseRowDirectAux headers (i + 1) cs rd2

def parseRowDirect (headers : List String) (cells : List Cell) : Row :=
  parseRowDirectAux headers 0 cells []

/-- Row parser of `UniversalExtractor._parse_table_structure`: only rows with
at least two cells, each cell written under the header at its list index, no
colspan handling (the rowspan branch in the source is a no-op). -/
def parseRowUniversal (headers : List String) (cells : List Cell) : Row :=
  if cells.length ≥ 2 then
    (cells.enum.foldl
      (fun acc ci =>
        match headers.get? ci.1 with
        | some h => dictSet acc h ci.2.text
        | none => acc) [])
  else []

/-- Header post-processing and row parsing of
`DirectTableExtractor._parse_table_structure` (header-row selection from
`thead`/first `tr` is the HTML plumbing abstracted into `headerCells`). -/
def parseTableStructure (t : PTable) : List String × List Row :=
  let headers0 := t.headerCells
  let headers :=
    match headers0 with
    | [h] =>
      if ["feature", "entries"].any (fun kw => containsSub kw.data (lowerL h.data)) then
        ["Feature", "Description"]
      else headers0
    | _ => headers0
  let rows := (t.dataRows.map (parseRowDirect headers)).filter (fun r => !r.isEmpty)
  (headers, rows)

/-- `re.search(r'S\d+[\w\-]+', h)` truthiness: an `S` followed by a digit and
one more word-or-hyphen character somewhere in the string. -/
def hasModelPattern (h : String) : Bool :=
  h.data.tails.any (fun suf =>
    match suf with
    | c1 :: c2 :: c3 :: _ => c1 = 'S' && isDigitC c2 && (isWordC c3 || c3 = '-')
    | _ => false)

/-- `DirectTableExtractor._is_multi_model_table`. -/
def isMultiModelTable (headers : List String) : Bool :=
  headers.any hasModelPattern

/-- `DirectTableExtractor._is_port_description`. -/
def isPortDescription (feature : String) : Bool :=
  let fl := lowerL feature.data
  ["sfp", "qsfp", "base-t", "ethernet", "port", "光口", "电口", "multigiga",
   "multi-giga"].any (fun kw => containsSub kw.data fl)

/-- Scanner for `re.search(r'\((\d+)\s*\*?\s*(?:base-t\s*)?combo\)', text)`:
returns the captured count of the leftmost match. All steps are
deterministic for this pattern (no backtracking can change matchability). -/
def comboAt (s : List Char) : Option Nat :=
  match s with
  | '(' :: rest =>
    let ds := rest.takeWhile isDigitC
    if ds.isEmpty then none
    else
      let r1 := (rest.drop ds.length).dropWhile isSpacePy
      let r2 := match r1 with | '*' :: r => r.dropWhile isSpacePy | _ => r1
      let r3 :=
        if "base-t".data.isPrefixOf r2 then (r2.drop 6).dropWhile isSpacePy else r2
      if "combo)".data.isPrefixOf r3 then some (natOfDigits ds) else none
  | _ => none

def comboScan (s : List Char) : Option Nat :=
  s.tails.findSome? comboAt

/-- Scanner for `re.search(r'(\d+)\s*[\*x×]?\s*UNIT', text)` (the 2.5G/5G/10G
port patterns): digit capture with the regex's greedy-then-backtrack choice
of capture length, leftmost match first. -/
def ngTailMatch (unit : List Char) (s : List Char) : Bool :=
  let r1 := s.dropWhile isSpacePy
  let r2 := match r1 with
    | c :: r => if c = '*' || c = 'x' || c = '×' then r.dropWhile isSpacePy else r1
    | [] => r1
  unit.isPrefixOf r2

def ngAt (unit : List Char) (s : List Char) : Option Nat :=
  let run := (s.takeWhile isDigitC).length
  if run = 0 then none
  else
    ((List.range run).reverse.map (· + 1)).findSome? (fun len =>
      if ngTailMatch unit (s.drop len) then some (natOfDigits (s.take len)) else none)

def ngScan (unit : String) (s : List Char) : Option Nat :=
  s.tails.findSome? (ngAt unit.data)

def pdText (feature value : String) : List Char :=
  lowerL ((value ++ " " ++ feature).data)

/-- The multigiga sub-branch of `_parse_port_description`: the MultiGiga
count plus any rate-specific counts whose rate is mentioned in the text. -/
def mgFamilySpecs (text : List Char) (pc : Nat) : Specs :=
  let d0 : Specs := [("MultiGiga端口数", .n pc)]
  let d1 := if containsSub "1g".data text then dictSet d0 "1G端口数" (.n pc) else d0
  let d2 :=
    if containsSub "2.5g".data text || containsSub "2.5gb".data text then
      dictSet d1 "2.5G端口数" (.n pc)
    else d1
  let d3 :=
    if containsSub "5g".data text || containsSub "5gb".data text then
      dictSet d2 "5G端口数" (.n pc)
    else d2
  if containsSub "10g".data text || containsSub "10gb".data text then
    dictSet d3 "10G端口数" (.n pc)
  else d3

/-- The main-count branch of `_parse_port_description`: the port family is
chosen by the source's elif chain over substring tests of the combined
`"value feature"` text. -/
def pdFamilySpecs (text : List Char) (value_lower : List Char) : Specs :=
  match leadingNat value_lower with
  | none => []
  | some pc =>
    if containsSub "sfp28".data text then [("SFP28端口数", .n pc)]
    else if containsSub "sfp+".data text || containsSub "sfp plus".data text then
      [("SFP+端口数", .n pc)]
    else if containsSub "qsfp28".data text then [("QSFP28端口数", .n pc)]
    else if containsSub "qsfp+".data text || containsSub "qsfp plus".data text then
      [("QSFP+端口数", .n pc)]
    else if containsSub "sfp".data text then [("SFP端口数", .n pc)]
    else if containsSub "multigiga".data text || containsSub "2.5g".data text then
      mgFamilySpecs text pc
    else if containsSub "base-t".data text || containsSub "ethernet".data text ||
        containsSub "电口".data text then
      [("1000Base-T端口数", .n pc)]
    else []

/-- `DirectTableExtractor._parse_port_description`. -/
def parsePortDescription (feature value : String) : Specs :=
  if value = "" || ["/", "-", ""].contains (pyStrip value) then []
  else
    let text := pdText feature value
    let value_lower := lowerL value.data
    let r1 : Specs := pdFamilySpecs text value_lower
    let r2 :=
      match comboScan text with
      | some n => dictSet r1 "Combo端口数" (.n n)
      | none => r1
    [("2.5g", "2.5G端口数"), ("5g", "5G端口数"), ("10g", "10G端口数")].foldl
      (fun acc pu =>
        match ngScan pu.1 text with
        | some n => dictSet acc pu.2 (.n n)
        | none => acc) r2

def isColonSpace (c : Char) : Bool := c = ':' || isSpacePy c

/-- Scanner for `re.search(r'W\s*\(CLS\)[:\s]+(\d+)(?!\d)', s)` at one start
position (`W`, `CLS` literal; the greedy runs are forced, the lookahead is
subsumed by taking the maximal digit run). -/
def scanAat (w cls : List Char) (s : List Char) : Option Nat :=
  if w.isPrefixOf s then
    let r1 := (s.drop w.length).dropWhile isSpacePy
    let par := '(' :: (cls ++ [')'])
    if par.isPrefixOf r1 then
      let r2 := r1.drop par.length
      let sep := r2.takeWhile isColonSpace
      if sep.isEmpty then none
      else
        let ds := (r2.drop sep.length).takeWhile isDigitC
        if ds.isEmpty then none else some (natOfDigits ds)
    else none
  else none

def scanA (w cls : String) (s : List Char) : Option Nat :=
  s.tails.findSome? (scanAat w.data cls.data)

/-- Scanner for `re.search(r'W[:\s]+(\d+)\s*\(CLS\)', s)` at one position. -/
def scanBat (w cls : List Char) (s : List Char) : Option Nat :=
  if w.isPrefixOf s then
    let r1 := s.drop w.length
    let sep := r1.takeWhile isColonSpace
    if sep.isEmpty then none
    else
      let ds := (r1.drop sep.length).takeWhile isDigitC
      if ds.isEmpty then none
      else
        let r2 := ((r1.drop sep.length).drop ds.length).dropWhile isSpacePy
        if ('(' :: (cls ++ [')'])).isPrefixOf r2 then some (natOfDigits ds) else none
  else none

def scanB (w cls : String) (s : List Char) : Option Nat :=
  s.tails.findSome? (scanBat w.data cls.data)

def rangeOk (v : Nat) : Bool := 1 ≤ v && v ≤ 48

/-- The per-class pattern loop of `_parse_poe_ports`: first pattern whose
captured integer passes the 1..48 guard wins; an out-of-range capture falls
through to the next pattern. -/
def firstInRange : List (Option Nat) → Option Nat
  | [] => none
  | o :: rest =>
    match o with
    | some v => if rangeOk v then some v else firstInRange rest
    | none => firstInRange rest

/-- `DirectTableExtractor._parse_poe_ports`. -/
def parsePoePorts (text : String) : Specs :=
  let t := text.data
  let afV := firstInRange [scanA "15.4W" "802.3af" t, scanB "15.4W" "802.3af" t]
  let atV := firstInRange [scanA "30W" "802.3at" t, scanB "30W" "802.3at" t]
  let bt60V := firstInRange [scanA "60W" "802.3bt" t, scanB "60W" "802.3bt" t]
  let bt90V := firstInRange [scanA "90W" "802.3bt" t, scanB "90W" "802.3bt" t]
  let d0 : Specs := []
  let d1 := match afV with | some v => dictSet d0 "POE端口数(802.3af)" (.n v) | none => d0
  let d2 := match atV with | some v => dictSet d1 "POE+端口数(802.3at)" (.n v) | none => d1
  let d3 := match bt60V with | some v => dictSet d2 "POE++端口数(60W)" (.n v) | none => d2
  match bt90V with | some v => dictSet d3 "POE++端口数(90W)" (.n v) | none => d3

/- ### Kind-specific extractors -/

/-- `DirectTableExtractor._extract_multi_model_table`. -/
def extractMultiModelTable (headers : List String) (rows : List Row) : ModelMap :=
  let feature_col := headers.headD ""
  let model_cols := (headers.drop 1).filter hasModelPattern
  let init : ModelMap := model_cols.foldl (fun acc m => dictSet acc m []) []
  rows.foldl (fun acc row =>
    let feature := (dictGet? row feature_col).getD ""
    if feature = "" then acc
    else if shouldSkipParam feature then acc
    else
      match normalizeParamName feature with
      | none => acc
      | some nf =>
        model_cols.foldl (fun acc2 m =>
          let value := (dictGet? row m).getD ""
          if value != "" && value != "-" then
            if isPortDescription feature then
              dictSet acc2 m
                (dictUpdate ((dictGet? acc2 m).getD []) (parsePortDescription feature value))
            else
              dictSet acc2 m (dictSet ((dictGet? acc2 m).getD []) nf (.s value))
          else acc2) acc) init

/-- `DirectTableExtractor._extract_generic_table`. -/
def extractGenericTable (headers : List String) (rows : List Row) : ModelMap :=
  let inner : Specs := rows.foldl (fun acc row =>
    if headers.length ≥ 2 then
      let key := (dictGet? row (headers.headD "")).getD ""
      let value := (dictGet? row (headers.getD 1 "")).getD ""
      if key != "" && !(shouldSkipParam key) then
        match normalizeParamName key with
        | some nk => dictSet acc nk (.s value)
        | none => acc
      else acc
    else acc) []
  [("generic", inner)]

/-- `DirectTableExtractor._extract_poe_table` (row-wise carry of the last
non-empty model cell handles the merged rowspan cells). -/
def extractPoeTable (headers : List String) (rows : List Row) : ModelMap :=
  let model_col := headers.headD ""
  let cols := headers.foldl
    (fun (acc : Option String × Option String) h =>
      let hl := lowerL h.data
      if containsSub "power".data hl && containsSub "capacity".data hl then (some h, acc.2)
      else if containsSub "port".data hl && containsSub "quantity".data hl then (acc.1, some h)
      else acc) (none, none)
  let step := fun (acc : Option String × ModelMap) (row : Row) =>
    let model0 := pyStrip ((dictGet? row model_col).getD "")
    let sel : Option (String × Option String) :=
      if model0 = "" then
        match acc.1 with
        | some lm => some (lm, acc.1)
        | none => none
      else some (model0, some model0)
    match sel with
    | none => acc
    | some (model, last2) =>
      let cur := (dictGet? acc.2 model).getD []
      let cur2 :=
        match cols.1 with
        | some pcol =>
          match dictGet? row pcol with
          | some power =>
            if strSub "AC:" power || strSub "DC:" power then
              dictSet cur ("POE总功率_" ++ pyStrip ((pySplit ':' power).headD ""))
                (.s (pyStrip ((pySplit ':' power).getD 1 "")))
            else dictSet cur "POE总功率" (.s power)
          | none => cur
        | none => cur
      let cur3 :=
        match cols.2 with
        | some qcol =>
          match dictGet? row qcol with
          | some ports_text => dictUpdate cur2 (parsePoePorts ports_text)
          | none => cur2
        | none => cur2
      (last2, dictSet acc.2 model cur3)
  (rows.foldl step (none, [])).2

def softwareSeriesKeyS (value_col : String) : String :=
  if strSub "S" value_col then value_col else "Series"

/-- `DirectTableExtractor._extract_software_table`. -/
def extractSoftwareTable (headers : List String) (rows : List Row) : ModelMap :=
  if headers.length < 2 then []
  else
    let feature_col := headers.headD ""
    let value_col := headers.getD 1 ""
    let features := rows.foldl (fun acc row =>
      let f := pyStrip ((dictGet? row feature_col).getD "")
      let v := pyStrip ((dictGet? row value_col).getD "")
      if f != "" && v != "" && !(shouldSkipParam f) then acc ++ [f ++ ": " ++ v]
      else acc) []
    if features.isEmpty then []
    else
      [(softwareSeriesKeyS value_col,
        [("软件特性", .s (joinWith "; " (features.take 10)))])]

def performanceSeriesKeyS (value_col : String) : String :=
  let ms := if strSub "S" value_col then value_col else "Performance"
  if strSub "Switches" ms then pyReplace ms "Switches" "Performance"
  else ms ++ " Performance"

/-- `DirectTableExtractor._extract_performance_table`. -/
def extractPerformanceTable (headers : List String) (rows : List Row) : ModelMap :=
  if headers.length < 2 then []
  else
    let feature_col := headers.headD ""
    let value_col := headers.getD 1 ""
    let perf : Specs := rows.foldl (fun acc row =>
      let f := pyStrip ((dictGet? row feature_col).getD "")
      let v := pyStrip ((dictGet? row value_col).getD "")
      if f = "" || v = "" then acc
      else
        let fl := lowerL f.data
        let norm : Option String :=
          if containsSub "mac".data fl then some "MAC地址表"
          else if containsSub "vlan".data fl && containsSub "table".data fl then some "VLAN表项"
          else if containsSub "routing".data fl || containsSub "route".data fl then some "路由表项"
          else if containsSub "arp".data fl then some "ARP表项"
          else if containsSub "acl".data fl then some "ACL规则数"
          else if containsSub "mroute".data fl || containsSub "multicast".data fl then some "组播表项"
          else none
        match norm with
        | some nk => dictSet acc nk (.s v)
        | none => acc) []
    if perf.isEmpty then []
    else [(performanceSeriesKeyS value_col, perf)]

/-- `DirectTableExtractor._extract_protocols_table` (the rowspan-merged
organization column is recovered through the `last_org` carry). -/
def extractProtocolsTable (headers : List String) (rows : List Row) : ModelMap :=
  let res := rows.foldl
    (fun (acc : String × List String) row =>
      let org0 :=
        if headers.isEmpty then "" else pyStrip ((dictGet? row (headers.headD "")).getD "")
      let std0 :=
        if headers.length > 1 then pyStrip ((dictGet? row (headers.getD 1 "")).getD "")
        else ""
      let lastOrg2 :=
        if org0 != "" && !(pyStartsWith org0 "802.") && !(pyStartsWith org0 "RFC") then org0
        else acc.1
      let pair :=
        if org0 != "" && (pyStartsWith org0 "802." || pyStartsWith org0 "RFC") then
          (lastOrg2, org0)
        else (org0, std0)
      let list2 :=
        if pair.1 != "" && pair.2 != "" then acc.2 ++ [pair.1 ++ ": " ++ pair.2]
        else acc.2
      (lastOrg2, list2)) ("", [])
  if res.2.isEmpty then []
  else [("Protocols", [("支持协议", .s (joinWith "; " res.2))])]

/-- `DirectTableExtractor._classify_switch_type`. -/
def classifySwitchType (model_name : String) (specs : Specs) : String :=
  if startsAny model_name ["S125", "S105", "S76", "S75", "S95", "S98"] then "框式交换机"
  else if specs.any (fun kv =>
      ["业务板槽位", "主控板槽位", "接口板槽位", "槽位数", "chassis", "slot"].any
        (fun cp => containsSub cp.data (lowerL kv.1.data))) then "框式交换机"
  else "盒式交换机"

/-- `DirectTableExtractor._process_table`. -/
def processTable (t : PTable) : Option ModelMap :=
  if t.text.data.length < 200 then none
  else
    let ttype := detectTableType t.text
    let hr := parseTableStructure t
    if hr.1.isEmpty || hr.2.isEmpty then none
    else some (
      if ttype = "poe" then extractPoeTable hr.1 hr.2
      else if ttype = "software" then extractSoftwareTable hr.1 hr.2
      else if ttype = "performance" then extractPerformanceTable hr.1 hr.2
      else if ttype = "protocols" then extractProtocolsTable hr.1 hr.2
      else if hr.1.length > 2 && isMultiModelTable hr.1 then
        extractMultiModelTable hr.1 hr.2
      else extractGenericTable hr.1 hr.2)

/-- The series-level key test in `extract_all_tables` (line 52). -/
def isSeriesKey (name : String) : Bool :=
  strSub "Series" name || strSub "Performance" name || strSub "Protocols" name ||
  startsAny name ["RFC", "IEEE", "ITU", "IETF"]

/-- Per-fragment step of the accumulation loop of `extract_all_tables`
(lines 48-57): fragments with series-level keys are parked in `series_data`
(second component), the rest accumulate per model (first component). -/
def fragStep (acc : ModelMap × ModelMap) (entry : String × Specs) :
    ModelMap × ModelMap :=
  if entry.2.isEmpty then acc
  else if isSeriesKey entry.1 then (acc.1, dictSet acc.2 entry.1 entry.2)
  else
    (dictSet acc.1 entry.1
      (dictUpdate ((dictGet? acc.1 entry.1).getD []) entry.2), acc.2)

/-- Per-table step of the accumulation loop (lines 44-47). -/
def tableStep (acc : ModelMap × ModelMap) (t : PTable) : ModelMap × ModelMap :=
  match processTable t with
  | none => acc
  | some td => if td.isEmpty then acc else td.foldl fragStep acc

/-- Accumulation loop of `extract_all_tables` (lines 44-57). -/
def foldFragments (tables : List PTable) : ModelMap × ModelMap :=
  tables.foldl tableStep ([], [])

/-- Lines 59-70 of `extract_all_tables`: URL, model description and series
features are attached to every model entry (`model_descriptions` and
`series_features` stand for the outputs of the page-level soup scans
`_extract_model_descriptions` / `_extract_series_features`). -/
def attachOne (url : String) (descriptions : List (String × String))
    (series_features : String) (k : String) (s : Specs) : Specs :=
  let s1 := dictSet s "链接地址" (.s url)
  let s2 :=
    match dictGet? descriptions k with
    | some d => dictSet s1 "型号描述" (.s d)
    | none => s1
  if series_features != "" then dictSet s2 "系列特性" (.s series_features) else s2

def attachStage (ad : ModelMap) (url : String) (descriptions : List (String × String))
    (series_features : String) : ModelMap :=
  mapEntries (attachOne url descriptions series_features) ad

def mergePfxList : List String :=
  ["S5130", "S5590", "S6520", "S5560", "S125", "S105", "S76", "S75"]

def seriesPfxCandidates : List String :=
  ["S5130S-EI", "S5130S", "S5130", "S5590", "S6520", "S5560", "S125", "S105", "S76", "S75"]

def updModelKeys (ad : ModelMap) (model_keys : List String) (specs : Specs) : ModelMap :=
  mapEntries (fun k s => if model_keys.contains k then dictUpdate s specs else s) ad

/- Lines 72-100 of `extract_all_tables`: series fragments are merged into
the models whose names start with a recognized prefix, when the series key
contains the page's series prefix or denotes protocols/performance. -/

/-- Per-series-fragment step of lines 88-100: a fragment is merged into every
recognized model key when its key contains the series prefix, or denotes
protocols, or denotes performance. -/
def mergeStep (seriesPfx : String) (model_keys : List String)
    (acc : ModelMap) (entry : String × Specs) : ModelMap :=
  if seriesPfx != "" && strSub seriesPfx entry.1 then
    updModelKeys acc model_keys entry.2
  else if strSub "Protocols" entry.1 then updModelKeys acc model_keys entry.2
  else if strSub "Performance" entry.1 then updModelKeys acc model_keys entry.2
  else acc

def seriesMergeStage (ad sd : ModelMap) : ModelMap :=
  if !sd.isEmpty && !ad.isEmpty then
    let model_keys := (ad.map Prod.fst).filter (fun k => startsAny k mergePfxList)
    match model_keys with
    | [] => ad
    | first_model :: _ =>
      let seriesPfx := (seriesPfxCandidates.find? (fun p => pyStartsWith first_model p)).getD ""
      sd.foldl (mergeStep seriesPfx model_keys) ad
  else ad

/-- Lines 102-127 of `extract_all_tables`: per-model field reconciliation and
the computed switch-type attribute. -/
def postOne (model_name : String) (specs0 : Specs) : Specs :=
  let s1 :=
    match dictGet? specs0 "1G端口数" with
    | some v =>
      if !(containsKey specs0 "1000Base-T端口数") then dictSet specs0 "1000Base-T端口数" v
      else specs0
    | none => specs0
  let s2 := if containsKey s1 "1G端口数" then dictDel s1 "1G端口数" else s1
  let partsAC :=
    match dictGet? s2 "POE总功率_AC" with
    | some v => ["AC:" ++ v.render ++ "W"]
    | none => []
  let partsDC :=
    match dictGet? s2 "POE总功率_DC" with
    | some v => ["DC:" ++ v.render ++ "W"]
    | none => []
  let parts := partsAC ++ partsDC
  let s3 :=
    if !parts.isEmpty && !(containsKey s2 "POE总功率") then
      dictSet s2 "POE总功率" (.s (joinWith "/" parts))
    else s2
  let s4 := if containsKey s3 "POE总功率_AC" then dictDel s3 "POE总功率_AC" else s3
  let s5 := if containsKey s4 "POE总功率_DC" then dictDel s4 "POE总功率_DC" else s4
  dictSet s5 "交换机类型" (.s (classifySwitchType model_name s5))

def postStage (ad : ModelMap) : ModelMap := mapEntries postOne ad

/-- `DirectTableExtractor.extract_all_tables`, staged as in the source:
fragment accumulation, page-field attachment, series merge, post-processing. -/
def extractAllTables (tables : List PTable) (page_url : String)
    (model_descriptions : List (String × String)) (series_features : String) : ModelMap :=
  let fs := foldFragments tables
  postStage (seriesMergeStage (attachStage fs.1 page_url model_descriptions series_features) fs.2)

/- ### PageAnalyzer (src/core/page_analyzer.py) -/

structure PAPattern where
  name : String
  keywords : List String
  headerTerms : List String
  extractor : String

/-- `PageAnalyzer.TABLE_PATTERNS` in declaration order. -/
def paTablePatterns : List PAPattern :=
  [ { name := "protocols",
      keywords := ["organization", "ieee", "standard", "protocol", "compliance"],
      headerTerms := ["organization", "standards"], extractor := "protocols" },
    { name := "poe_power",
      keywords := ["poe", "power capacity", "802.3af", "802.3at", "quantity"],
      headerTerms := ["model", "power", "quantity"], extractor := "poe_power" },
    { name := "software",
      keywords := ["software", "feature", "vlan", "routing", "multicast"],
      headerTerms := ["feature", "description", "specification"], extractor := "software" },
    { name := "performance",
      keywords := ["entries", "mac address", "vlan table", "routing", "performance"],
      headerTerms := ["entries", "table", "capacity"], extractor := "performance" },
    { name := "hardware_multi",
      keywords := ["port", "switching capacity", "feature", "model"],
      headerTerms := ["feature", "port", "model"], extractor := "multi_model_hardware" },
    { name := "hardware_single",
      keywords := ["specification", "attribute", "value"],
      headerTerms := ["attribute", "value", "specification"],
      extractor := "single_model_hardware" } ]

/-- Python `' '.join(h.lower() for h in headers)`. -/
def paHeaderStr (headers : List String) : List Char :=
  (joinWith " " (headers.map lowerS)).data

/-- The per-kind score of `PageAnalyzer._detect_table_type`: 2 per keyword
found in the table text, 3 per header term found in the header string. -/
def paScore (p : PAPattern) (tl hstr : List Char) : Nat :=
  2 * (p.keywords.countP (fun kw => containsSub kw.data tl)) +
  3 * (p.headerTerms.countP (fun h => containsSub h.data hstr))

/-- Python `max(scores, key=scores.get)`: the first entry attaining the
maximal score, in catalogue order. -/
def paBest : List (String × String × Nat) → Option (String × String × Nat)
  | [] => none
  | x :: rest => some (rest.foldl (fun acc y => if y.2.2 > acc.2.2 then y else acc) x)

/-- `PageAnalyzer._detect_table_type` returning `(table_type, extractor,
confidence)`. -/
def paDetectTableType (text : String) (headers : List String) :
    String × String × ℚ :=
  let tl := lowerL text.data
  let hstr := paHeaderStr headers
  let scores := paTablePatterns.map (fun p => (p.name, p.extractor, paScore p tl hstr))
  match paBest scores with
  | some best => (best.1, best.2.1, min ((best.2.2 : ℚ) / 10) 1)
  | none => ("unknown", "generic", 3 / 10)

/- ### Rule engine (src/core/rule_engine.py) -/

/-- `ExtractionRule`.  A compiled regex is abstracted as its
`re.search`-truthiness function on the searched string; a pattern that fails
`re.compile` (raising `re.error` at the point of use) is `none`.  `params` is
restricted to the string-valued entries the extractor reads. -/
structure ExtractionRule where
  name : String
  pattern : Option (List Char → Bool)
  rule_type : String
  action : String
  params : List (String × String)
  priority : Int
  enabled : Bool

/-- `ProductProfile` (the fields the embedded code reads). -/
structure ProductProfile where
  name : String
  brand : String
  product_type : String
  sub_type : String
  version : String
  parent_profile : Option String
  table_detection_rules : List ExtractionRule
  param_mapping_rules : List ExtractionRule
  value_extraction_rules : List ExtractionRule
  post_processing_rules : List ExtractionRule
  default_fields : List String
  skip_patterns : List String

/-- `ProductProfile.merge_with_parent` (on a present parent), returning the
updated child: the source keeps the parent's full rule lists and appends only
the child rules whose names do not occur among the parent's. -/
def mergeWithParent (child parent : ProductProfile) : ProductProfile :=
  { child with
    table_detection_rules :=
      parent.table_detection_rules ++
        child.table_detection_rules.filter (fun r =>
          !(parent.table_detection_rules.any (fun pr => pr.name == r.name)))
    param_mapping_rules :=
      parent.param_mapping_rules ++
        child.param_mapping_rules.filter (fun r =>
          !(parent.param_mapping_rules.any (fun pr => pr.name == r.name))) }

/- ### UniversalExtractor rule evaluation (src/core/universal_extractor.py) -/

/-- `sorted(rules, key=lambda r: r.priority, reverse=True)`: Python's sort is
stable, so it is the stable descending insertion sort by priority. -/
def orderedInsertR (a : ExtractionRule) : List ExtractionRule → List ExtractionRule
  | [] => [a]
  | b :: l => if b.priority ≤ a.priority then a :: b :: l else b :: orderedInsertR a l

def sortRulesDesc : List ExtractionRule → List ExtractionRule
  | [] => []
  | a :: l => orderedInsertR a (sortRulesDesc l)

/-- Rule loop of `_detect_table_type_with_rules`: disabled rules are skipped,
rules whose regex fails to compile are skipped by the `except re.error`
handler, the first matching rule returns its `extractor` param. -/
def evalDetectRules : List ExtractionRule → List Char → Option String
  | [], _ => none
  | r :: rest, tl =>
    if !r.enabled then evalDetectRules rest tl
    else
      match r.pattern with
      | none => evalDetectRules rest tl
      | some m =>
        if m tl then some ((dictGet? r.params "extractor").getD "generic")
        else evalDetectRules rest tl

/-- `UniversalExtractor._fallback_table_detection`. -/
def fallbackTableDetection (text : String) : String :=
  let tl := lowerL text.data
  if containsSub "organization".data tl && containsSub "ieee".data tl then "protocols"
  else if containsSub "poe power capacity".data tl && containsSub "quantity".data tl then
    "poe_power"
  else if ["mac address entries", "vlan table"].any (fun x => containsSub x.data tl) then
    "performance"
  else if containsSub "software".data tl &&
      (containsSub "vlan".data tl || containsSub "routing".data tl) then "software"
  else "hardware"

/-- `UniversalExtractor._detect_table_type_with_rules`. -/
def detectTableTypeWithRules (profile : Option ProductProfile)
    (globalTD : List ExtractionRule) (text : String) : String :=
  let tl := lowerL text.data
  match
    (match profile with
     | some p => evalDetectRules (sortRulesDesc p.table_detection_rules) tl
     | none => none) with
  | some t => t
  | none =>
    match evalDetectRules (sortRulesDesc globalTD) tl with
    | some t => t
    | none => fallbackTableDetection text

/-- Rule loop of `_normalize_param_name`: a matching rule with action
`map_to` returns `params.get('target')` (possibly `None`), anything else
falls through. -/
def evalMapRules : List ExtractionRule → List Char → Option (Option String)
  | [], _ => none
  | r :: rest, pl =>
    if !r.enabled then evalMapRules rest pl
    else
      match r.pattern with
      | none => evalMapRules rest pl
      | some m =>
        if m pl then
          if r.action = "map_to" then some (dictGet? r.params "target")
          else evalMapRules rest pl
        else evalMapRules rest pl

/-- `UniversalExtractor._normalize_param_name`. -/
def normalizeParamNameU (profile : Option ProductProfile)
    (globalPM : List ExtractionRule) (param : String) : Option String :=
  let pl := lowerL param.data
  match
    (match profile with
     | some p => evalMapRules (sortRulesDesc p.param_mapping_rules) pl
     | none => none) with
  | some t => t
  | none =>
    match evalMapRules (sortRulesDesc globalPM) pl with
    | some t => t
    | none => none

/- ### Length lemmas for `replaceAllL` (supporting claim C6) -/

theorem length_le_of_isPrefixOf {l1 l2 : List Char} (h : l1.isPrefixOf l2 = true) :
    l1.length ≤ l2.length :=
  ((List.isPrefixOf_iff_prefix.mp h).length_le)

theorem replaceAllL_length_ge (needle repl : List Char)
    (hlen : needle.length ≤ repl.length) (s : List Char) :
    s.length ≤ (replaceAllL needle repl s).length := by
  induction s using replaceAllL.induct needle repl with
  | case1 => simp [replaceAllL]
  | case2 c rest hcond ih =>
    rw [replaceAllL, if_pos hcond]
    have hparts : (!needle.isEmpty) = true ∧ needle.isPrefixOf (c :: rest) = true := by
      simpa using hcond
    have h1 : needle.length ≤ rest.length + 1 := by
      simpa using length_le_of_isPrefixOf hparts.2
    have h3 : 1 ≤ needle.length := by
      cases needle with
      | nil => simp at hparts
      | cons a l => simp
    simp only [List.length_append, List.length_cons, List.length_drop] at ih ⊢
    omega
  | case3 c rest hcond ih =>
    rw [replaceAllL, if_neg hcond]
    simpa using Nat.succ_le_succ ih

theorem replaceAllL_length_gain (needle repl : List Char) (hne : 1 ≤ needle.length)
    (hlen : needle.length ≤ repl.length) (s : List Char)
    (hocc : containsSub needle s = true) :
    s.length + (repl.length - needle.length) ≤ (replaceAllL needle repl s).length := by
  induction s with
  | nil =>
    exfalso
    cases needle with
    | nil => simp at hne
    | cons a l => simp [containsSub, List.isEmpty] at hocc
  | cons c rest ih =>
    by_cases hp : needle.isPrefixOf (c :: rest) = true
    · have hcond : (!needle.isEmpty && needle.isPrefixOf (c :: rest)) = true := by
        cases needle with
        | nil => simp at hne
        | cons a l => simpa using hp
      rw [replaceAllL, if_pos hcond]
      have h1 : needle.length ≤ rest.length + 1 := by
        simpa using length_le_of_isPrefixOf hp
      have h4 := replaceAllL_length_ge needle repl hlen (rest.drop (needle.length - 1))
      simp only [List.length_append, List.length_cons, List.length_drop] at h4 ⊢
      omega
    · have hocc2 : containsSub needle rest = true := by
        have h0 := hocc
        rw [containsSub] at h0
        have hp2 : needle.isPrefixOf (c :: rest) = false := by
          exact Bool.eq_false_iff.mpr hp
        simpa [hp2] using h0
      have hcond : ¬ ((!needle.isEmpty && needle.isPrefixOf (c :: rest)) = true) := by
        simp [hp]
      rw [replaceAllL, if_neg hcond]
      have := ih hocc2
      simp only [List.length_cons]
      omega

theorem softwareKey_ne_performanceKey (h : String) :
    softwareSeriesKeyS h ≠ performanceSeriesKeyS h := by
  intro heq
  by_cases hS : strSub "S" h = true
  · have key1 : softwareSeriesKeyS h = h := by simp [softwareSeriesKeyS, hS]
    by_cases hSw : strSub "Switches" h = true
    · have key2 : performanceSeriesKeyS h = pyReplace h "Switches" "Performance" := by
        simp [performanceSeriesKeyS, hS, hSw]
      rw [key1, key2] at heq
      have hd : h.data = (pyReplace h "Switches" "Performance").data :=
        congrArg String.data heq
      have hd2 : (pyReplace h "Switches" "Performance").data =
          replaceAllL "Switches".data "Performance".data h.data := rfl
      rw [hd2] at hd
      have hlen := congrArg List.length hd
      have hgain := replaceAllL_length_gain "Switches".data "Performance".data
        (by decide) (by decide) h.data hSw
      have l1 : ("Switches".data).length = 8 := by decide
      have l2 : ("Performance".data).length = 11 := by decide
      rw [l1, l2] at hgain
      omega
    · have key2 : performanceSeriesKeyS h = h ++ " Performance" := by
        simp [performanceSeriesKeyS, hS, hSw]
      rw [key1, key2] at heq
      have hd : h.data = (h ++ " Performance").data := congrArg String.data heq
      have hd2 : (h ++ " Performance").data = h.data ++ " Performance".data := rfl
      rw [hd2] at hd
      have hlen := congrArg List.length hd
      simp at hlen
  · have key1 : softwareSeriesKeyS h = "Series" := by simp [softwareSeriesKeyS, hS]
    have key2 : performanceSeriesKeyS h = "Performance" ++ " Performance" := by
      simp [performanceSeriesKeyS, hS]
      decide
    rw [key1, key2] at heq
    exact absurd heq (by decide)

/-- C6: for every two-column header list, the series key produced by the
software-feature extractor (`_extract_software_table`) and the pseudo-key
produced by the performance extractor (`_extract_performance_table`) from the
same second-column header are never equal strings, so a software fragment and
a performance fragment from the same page can never overwrite one another. -/
theorem c6_series_keys_never_collide (h : String) :
    (softwareSeriesKeyS h == performanceSeriesKeyS h) = false :=
  beq_eq_false_iff_ne.mpr (softwareKey_ne_performanceKey h)

/- ### Lemmas about the analyzer's argmax fold (supporting claim C3) -/

theorem paBestFold_mem (rest : List (String × String × Nat)) :
    ∀ x : String × String × Nat,
      rest.foldl (fun acc y => if y.2.2 > acc.2.2 then y else acc) x ∈ x :: rest := by
  induction rest with
  | nil => intro x; simp
  | cons y ys ih =>
    intro x
    simp only [List.foldl_cons]
    by_cases hy : y.2.2 > x.2.2
    · rw [if_pos hy]
      exact List.mem_cons_of_mem x (ih y)
    · rw [if_neg hy]
      rcases List.mem_cons.mp (ih x) with h2 | h2
      · rw [h2]
        exact List.mem_cons_self x (y :: ys)
      · exact List.mem_cons_of_mem x (List.mem_cons_of_mem y h2)

theorem paBestFold_allZero (rest : List (String × String × Nat)) :
    ∀ x : String × String × Nat, x.2.2 = 0 → (∀ y ∈ rest, y.2.2 = 0) →
      rest.foldl (fun acc y => if y.2.2 > acc.2.2 then y else acc) x = x := by
  induction rest with
  | nil => intro x _ _; rfl
  | cons y ys ih =>
    intro x hx hall
    have hy : y.2.2 = 0 := hall y (by simp)
    have hys : ∀ z ∈ ys, z.2.2 = 0 := fun z hz => hall z (by simp [hz])
    simp only [List.foldl_cons, hy, hx]
    exact ih x hx hys

theorem paBest_mem (l : List (String × String × Nat)) (b : String × String × Nat)
    (h : paBest l = some b) : b ∈ l := by
  cases l with
  | nil => simp [paBest] at h
  | cons x rest =>
    have hb : b = rest.foldl (fun acc y => if y.2.2 > acc.2.2 then y else acc) x := by
      simpa [paBest] using h.symm
    rw [hb]
    exact paBestFold_mem rest x

theorem paBest_spec (l : List (String × String × Nat)) (hl : l ≠ []) :
    ∃ b, paBest l = some b ∧ b ∈ l ∧
      ((∀ y ∈ l, y.2.2 = 0) → b = l.head hl) := by
  cases l with
  | nil => exact absurd rfl hl
  | cons x rest =>
    refine ⟨rest.foldl (fun acc y => if y.2.2 > acc.2.2 then y else acc) x,
      by simp [paBest], paBestFold_mem rest x, ?_⟩
    intro hz
    have hx := hz x (by simp)
    simpa using paBestFold_allZero rest x hx (fun y hy => hz y (by simp [hy]))

/-- C3 (amended): the analyzer's classification carries confidence
`min(score/10, 1)` for the returned kind, where the kind's score adds 2 per
catalogue keyword found in the text and 3 per header term found in the joined
header string; and when every kind scores zero the classifier returns the
first-declared catalogue kind `protocols` with confidence 0 — the claimed
`unknown`/0.3 branch is unreachable because the catalogue is non-empty. -/
theorem c3_classifier_confidence_formula (text : String) (headers : List String) :
    (∃ p ∈ paTablePatterns,
        (paDetectTableType text headers).1 = p.name ∧
        (paDetectTableType text headers).2.1 = p.extractor ∧
        (paDetectTableType text headers).2.2 =
          min ((paScore p (lowerL text.data) (paHeaderStr headers) : ℚ) / 10) 1) ∧
    ((∀ p ∈ paTablePatterns,
        paScore p (lowerL text.data) (paHeaderStr headers) = 0) →
      (paDetectTableType text headers).1 = "protocols" ∧
        (paDetectTableType text headers).2.2 = 0) := by
  obtain ⟨b, hb, hmem, hzero⟩ := paBest_spec
    (paTablePatterns.map (fun p =>
      (p.name, p.extractor, paScore p (lowerL text.data) (paHeaderStr headers))))
    (by simp [paTablePatterns])
  have hdet : paDetectTableType text headers = (b.1, b.2.1, min ((b.2.2 : ℚ) / 10) 1) := by
    simp only [paDetectTableType]
    rw [hb]
  constructor
  · rcases List.mem_map.mp hmem with ⟨p, hp, hpe⟩
    exact ⟨p, hp, by rw [hdet, ← hpe], by rw [hdet, ← hpe], by rw [hdet, ← hpe]⟩
  · intro hz
    have hball : ∀ y ∈ paTablePatterns.map (fun p =>
        (p.name, p.extractor, paScore p (lowerL text.data) (paHeaderStr headers))),
        y.2.2 = 0 := by
      intro y hy
      rcases List.mem_map.mp hy with ⟨p, hp, hpe⟩
      rw [← hpe]
      exact hz p hp
    have hbhead := hzero hball
    have hname : b.1 = "protocols" := by rw [hbhead]; simp [paTablePatterns]
    have hscore : b.2.2 = 0 := by
      rw [hbhead]
      simp only [paTablePatterns, List.map_cons, List.head_cons]
      exact hz _ (by simp [paTablePatterns])
    refine ⟨by rw [hdet]; exact hname, ?_⟩
    rw [hdet]
    simp [hscore]

/-- Witness for C3's theorem at a concrete all-zero input: the inner
hypothesis (every catalogue kind scores zero on text `"xyz"` with no headers)
is discharged by computation. -/
theorem c3_classifier_confidence_formula_witness :
    (paDetectTableType "xyz" []).1 = "protocols" ∧
      (paDetectTableType "xyz" []).2.2 = 0 :=
  (c3_classifier_confidence_formula "xyz" []).2 (by decide)

/-- Counterexample for C3 as stated: on the table text `"xyz"` with no
headers every kind's score is zero, yet the classifier does not return kind
`unknown` with confidence 0.3 — it returns `protocols` with confidence 0. -/
theorem c3_counterexample :
    paTablePatterns.all
        (fun p => paScore p (lowerL "xyz".data) (paHeaderStr []) == 0) = true ∧
    (paDetectTableType "xyz" []).1 = "protocols" ∧
    (paDetectTableType "xyz" []).2.2 = 0 ∧
    ¬((paDetectTableType "xyz" []).1 = "unknown" ∧
        (paDetectTableType "xyz" []).2.2 = 3 / 10) := by
  have hfold : paBest (paTablePatterns.map (fun p =>
      (p.name, p.extractor, paScore p (lowerL "xyz".data) (paHeaderStr [])))) =
      some ("protocols", "protocols", 0) := by decide
  have hdet : paDetectTableType "xyz" [] = ("protocols", "protocols", min ((0 : ℚ) / 10) 1) := by
    simp only [paDetectTableType]
    rw [hfold]
    norm_num
  have hmin : min ((0 : ℚ) / 10) 1 = 0 := by norm_num
  rw [hmin] at hdet
  refine ⟨by decide, by rw [hdet], by rw [hdet], ?_⟩
  intro hcl
  rw [hdet] at hcl
  exact absurd hcl.1 (by decide)

/-- C5 (amended): the direct extractor's rule-based detector
(`DirectTableExtractor._detect_table_type`) classifies every table text
containing `organization` and `ieee` (case-insensitively) as `protocols`,
before any POE check can fire. -/
theorem c5_direct_detector_protocols_precedence (text : String)
    (h1 : containsSub "organization".data (lowerL text.data) = true)
    (h2 : containsSub "ieee".data (lowerL text.data) = true) :
    detectTableType text = "protocols" := by
  unfold detectTableType
  simp [h1, h2]

/-- Witness for C5's theorem at a concrete input containing POE keywords. -/
theorem c5_direct_detector_protocols_precedence_witness :
    detectTableType "Organization IEEE PoE 802.3af" = "protocols" :=
  c5_direct_detector_protocols_precedence "Organization IEEE PoE 802.3af"
    (by decide) (by decide)

/-- Counterexample for C5 as stated: the page analyzer's score-based
classifier (`PageAnalyzer._detect_table_type`, also cited by the claim)
returns the POE-power kind for a table text containing `Organization` and
`IEEE`, because the POE keyword score outweighs the protocols score. -/
theorem c5_counterexample :
    strSub "organization"
        (lowerS "Organization IEEE PoE power capacity 802.3af 802.3at quantity") = true ∧
    strSub "ieee"
        (lowerS "Organization IEEE PoE power capacity 802.3af 802.3at quantity") = true ∧
    (paDetectTableType "Organization IEEE PoE power capacity 802.3af 802.3at quantity"
        []).1 = "poe_power" := by
  refine ⟨by decide, by decide, by decide⟩

theorem dictGet?_dictSet_preserve_val {β : Type} (d : List (String × β)) (k k2 : String)
    (v : β) (h : dictGet? d k2 = some v) : dictGet? (dictSet d k v) k2 = some v := by
  by_cases hk : k2 = k
  · subst hk; exact dictGet?_dictSet_self d k2 v
  · rw [dictGet?_dictSet_ne d k k2 v hk]; exact h

/-- C4 (amended): in the direct extractor's parser, a data row whose only
cell has `colspan=3` populates the headers at column indices 0, 1 and 2
with that cell's identical text.  (When further cells follow, they are
enumerated by cell-list position rather than grid column and overwrite the
covered indices — see the counterexample — and the universal extractor's
parser ignores colspan entirely.) -/
theorem c4_colspan_single_cell_row (headers : List String) (t : String)
    (h3 : 3 ≤ headers.length) :
    dictGet? (parseRowDirect headers [⟨t, 3⟩]) (headers.getD 0 "") = some t ∧
    dictGet? (parseRowDirect headers [⟨t, 3⟩]) (headers.getD 1 "") = some t ∧
    dictGet? (parseRowDirect headers [⟨t, 3⟩]) (headers.getD 2 "") = some t := by
  rcases headers with _ | ⟨h0, _ | ⟨h1, _ | ⟨h2, rest⟩⟩⟩
  · simp at h3
  · simp at h3
  · simp at h3
  · have hred : parseRowDirect (h0 :: h1 :: h2 :: rest) [⟨t, 3⟩] =
        dictSet (dictSet (dictSet [] h0 t) h1 t) h2 t := by
      rfl
    rw [hred]
    refine ⟨?_, ?_, ?_⟩
    · exact dictGet?_dictSet_preserve_val _ h2 h0 t
        (dictGet?_dictSet_preserve_val _ h1 h0 t (dictGet?_dictSet_self [] h0 t))
    · exact dictGet?_dictSet_preserve_val _ h2 h1 t (dictGet?_dictSet_self _ h1 t)
    · exact dictGet?_dictSet_self _ h2 t

/-- Witness for C4's amended theorem on a concrete three-header row. -/
theorem c4_colspan_single_cell_row_witness :
    dictGet? (parseRowDirect ["a", "b", "c"] [⟨"X", 3⟩]) (["a", "b", "c"].getD 0 "") =
        some "X" ∧
    dictGet? (parseRowDirect ["a", "b", "c"] [⟨"X", 3⟩]) (["a", "b", "c"].getD 1 "") =
        some "X" ∧
    dictGet? (parseRowDirect ["a", "b", "c"] [⟨"X", 3⟩]) (["a", "b", "c"].getD 2 "") =
        some "X" :=
  c4_colspan_single_cell_row ["a", "b", "c"] "X" (by decide)

/-- Counterexample for C4 as stated: with a second cell following the
colspan-3 cell, the direct extractor's parser indexes that cell by its
position in the cell list (column 1, not its true grid column 3) and
overwrites the duplicated text, so the final row mapping does not hold the
colspan cell's text at column 1; the universal extractor's parser (also cited
by the claim) never duplicates the text into columns 1 and 2 at all. -/
theorem c4_counterexample :
    dictGet? (parseRowDirect ["h0", "h1", "h2", "h3"] [⟨"X", 3⟩, ⟨"Y", 1⟩]) "h1" =
        some "Y" ∧
    (some "Y" == some "X") = false ∧
    dictGet? (parseRowUniversal ["h0", "h1", "h2", "h3"] [⟨"X", 3⟩, ⟨"Y", 1⟩]) "h1" =
        some "Y" ∧
    dictGet? (parseRowUniversal ["h0", "h1", "h2", "h3"] [⟨"X", 3⟩, ⟨"Y", 1⟩]) "h2" =
        none := by
  refine ⟨by decide, by decide, by decide, by decide⟩

theorem containsKey_dictSet_elim {β : Type} (d : List (String × β)) (k k2 : String)
    (v : β) (h : containsKey (dictSet d k v) k2 = true) :
    k2 = k ∨ containsKey d k2 = true := by
  by_cases hk : k2 = k
  · exact Or.inl hk
  · right
    rw [containsKey, ← dictGet?_dictSet_ne d k k2 v hk]
    exact h

theorem containsKey_singleton_elim {β : Type} {k0 k2 : String} {v : β}
    (h : containsKey [(k0, v)] k2 = true) : k2 = k0 := by
  by_cases hk : k0 = k2
  · exact hk.symm
  · simp [containsKey, dictGet?, hk] at h

theorem mgFamilySpecs_no_sfp (text : List Char) (pc : Nat) :
    containsKey (mgFamilySpecs text pc) "SFP端口数" = false := by
  unfold mgFamilySpecs
  cases h1 : containsSub "1g".data text <;>
    cases h2 : (containsSub "2.5g".data text || containsSub "2.5gb".data text) <;>
      cases h3 : (containsSub "5g".data text || containsSub "5gb".data text) <;>
        cases h4 : (containsSub "10g".data text || containsSub "10gb".data text) <;>
          simp [h1, h2, h3, h4, dictSet, containsKey, dictGet?]

/-- The generic `SFP` family key is produced only when neither `sfp+` nor
`sfp28` occurs in the combined text. -/
theorem pdFamilySpecs_sfp_guard (text value_lower : List Char)
    (h : containsKey (pdFamilySpecs text value_lower) "SFP端口数" = true) :
    containsSub "sfp+".data text = false ∧ containsSub "sfp28".data text = false := by
  unfold pdFamilySpecs at h
  split at h
  · simp [containsKey, dictGet?] at h
  · split at h
    · exact absurd (containsKey_singleton_elim h) (by decide)
    · split at h
      · exact absurd (containsKey_singleton_elim h) (by decide)
      · split at h
        · exact absurd (containsKey_singleton_elim h) (by decide)
        · split at h
          · exact absurd (containsKey_singleton_elim h) (by decide)
          · split at h
            · rename_i hns28 hnsp hnq28 hnqp hsfp
              constructor
              · cases hv : containsSub "sfp+".data text
                · rfl
                · exact absurd (by simp [hv]) hnsp
              · cases hv : containsSub "sfp28".data text
                · rfl
                · exact absurd (by simp [hv]) hns28
            · split at h
              · rw [mgFamilySpecs_no_sfp] at h
                exact absurd h (by decide)
              · split at h
                · exact absurd (containsKey_singleton_elim h) (by decide)
                · simp [containsKey, dictGet?] at h

theorem containsKey_matchSet_elim (o : Option Nat) (d : Specs) (k k2 : String)
    (h : containsKey
        (match o with | some n => dictSet d k (.n n) | none => d) k2 = true) :
    k2 = k ∨ containsKey d k2 = true := by
  cases o with
  | none => exact Or.inr h
  | some n => exact containsKey_dictSet_elim d k k2 _ h

/-- C7: decomposing feature `"SFP+ Ports"` with cell value `"4"` sets the
SFP+ port-count attribute to 4 and nothing else — in particular not the
generic SFP count; and in general the generic `SFP端口数` key can only be
produced when neither `sfp+` nor `sfp28` occurs in the combined text, so the
generic family never shadows the more specific ones. -/
theorem c7_port_decomposition_specificity :
    parsePortDescription "SFP+ Ports" "4" = [("SFP+端口数", SpecValue.n 4)] ∧
    (∀ feature value : String,
      containsKey (parsePortDescription feature value) "SFP端口数" = true →
        containsSub "sfp+".data (pdText feature value) = false ∧
        containsSub "sfp28".data (pdText feature value) = false) := by
  constructor
  · decide
  · intro f v h
    unfold parsePortDescription at h
    split at h
    · simp [containsKey, dictGet?] at h
    · simp only [List.foldl_cons, List.foldl_nil] at h
      rcases containsKey_matchSet_elim _ _ _ _ h with hk | h
      · exact absurd hk (by decide)
      rcases containsKey_matchSet_elim _ _ _ _ h with hk | h
      · exact absurd hk (by decide)
      rcases containsKey_matchSet_elim _ _ _ _ h with hk | h
      · exact absurd hk (by decide)
      rcases containsKey_matchSet_elim _ _ _ _ h with hk | h
      · exact absurd hk (by decide)
      exact pdFamilySpecs_sfp_guard _ _ h

/-- Witness for C7's general guard at a concrete input that does produce the
generic SFP key. -/
theorem c7_port_decomposition_specificity_witness :
    containsSub "sfp+".data (pdText "SFP Ports" "4") = false ∧
    containsSub "sfp28".data (pdText "SFP Ports" "4") = false :=
  c7_port_decomposition_specificity.2 "SFP Ports" "4" (by decide)

theorem rangeOk_bounds (v : Nat) (h : rangeOk v = true) : 1 ≤ v ∧ v ≤ 48 := by
  simpa [rangeOk] using h

theorem firstInRange_ok : ∀ (l : List (Option Nat)) (v : Nat),
    firstInRange l = some v → rangeOk v = true := by
  intro l
  induction l with
  | nil => intro v h; simp [firstInRange] at h
  | cons o rest ih =>
    intro v h
    cases o with
    | none => exact ih v (by simpa [firstInRange] using h)
    | some w =>
      by_cases hr : rangeOk w = true
      · have hv : w = v := by simpa [firstInRange, hr] using h
        exact hv ▸ hr
      · exact ih v (by simpa [firstInRange, hr] using h)

theorem dictGet?_matchSet_elim (o : Option Nat) (d : Specs) (k k2 : String)
    (sv : SpecValue)
    (h : dictGet?
        (match o with | some n => dictSet d k (.n n) | none => d) k2 = some sv) :
    (∃ n, o = some n ∧ sv = SpecValue.n n) ∨ dictGet? d k2 = some sv := by
  cases o with
  | none => exact Or.inr h
  | some n =>
    by_cases hk : k2 = k
    · subst hk
      rw [dictGet?_dictSet_self] at h
      exact Or.inl ⟨n, rfl, (Option.some.inj h).symm⟩
    · rw [dictGet?_dictSet_ne d k k2 _ hk] at h
      exact Or.inr h

/-- C8: the POE port-quantity parser never stores an out-of-range count:
an input whose captured integer is outside 1..48 (like the spec's
`"15.4W (802.3af): 60"`) populates nothing, and every count it does store
lies in 1..48. -/
theorem c8_poe_port_range_guard :
    parsePoePorts "15.4W (802.3af): 60" = [] ∧
    (∀ (text : String) (k : String) (sv : SpecValue),
      dictGet? (parsePoePorts text) k = some sv →
        ∃ v, sv = SpecValue.n v ∧ 1 ≤ v ∧ v ≤ 48) := by
  constructor
  · decide
  · intro text k sv h
    unfold parsePoePorts at h
    rcases dictGet?_matchSet_elim _ _ _ _ _ h with ⟨n, ho, rfl⟩ | h
    · exact ⟨n, rfl, rangeOk_bounds n (firstInRange_ok _ n ho)⟩
    rcases dictGet?_matchSet_elim _ _ _ _ _ h with ⟨n, ho, rfl⟩ | h
    · exact ⟨n, rfl, rangeOk_bounds n (firstInRange_ok _ n ho)⟩
    rcases dictGet?_matchSet_elim _ _ _ _ _ h with ⟨n, ho, rfl⟩ | h
    · exact ⟨n, rfl, rangeOk_bounds n (firstInRange_ok _ n ho)⟩
    rcases dictGet?_matchSet_elim _ _ _ _ _ h with ⟨n, ho, rfl⟩ | h
    · exact ⟨n, rfl, rangeOk_bounds n (firstInRange_ok _ n ho)⟩
    simp [dictGet?] at h

/-- Witness for C8's general bound at an in-range input. -/
theorem c8_poe_port_range_guard_witness :
    ∃ v, SpecValue.n 8 = SpecValue.n v ∧ 1 ≤ v ∧ v ≤ 48 :=
  c8_poe_port_range_guard.2 "15.4W (802.3af): 8" "POE端口数(802.3af)"
    (SpecValue.n 8) (by decide)

/-- A parent profile carrying a table-detection rule named `mapping_poe`
(priority 100). -/
def parentProfilePoe : ProductProfile :=
  { name := "H3C-Switch-Box", brand := "H3C", product_type := "switch",
    sub_type := "box", version := "1.0", parent_profile := none,
    table_detection_rules :=
      [{ name := "mapping_poe",
         pattern := some (fun tl => containsSub "poe".data tl),
         rule_type := "table_detection", action := "extract",
         params := [("extractor", "poe_power")], priority := 100, enabled := true }],
    param_mapping_rules := [], value_extraction_rules := [],
    post_processing_rules := [], default_fields := [], skip_patterns := [] }

/-- A child profile whose same-named `mapping_poe` rule (priority 50) has a
different pattern and should, per the spec and the method's own comment,
fully replace the parent's rule. -/
def childProfilePoe : ProductProfile :=
  { name := "H3C-Switch-Box-Child", brand := "H3C", product_type := "switch",
    sub_type := "box", version := "1.0", parent_profile := some "H3C-Switch-Box",
    table_detection_rules :=
      [{ name := "mapping_poe",
         pattern := some (fun tl => containsSub "poe power capacity".data tl),
         rule_type := "table_detection", action := "extract",
         params := [("extractor", "poe_power")], priority := 50, enabled := true }],
    param_mapping_rules := [], value_extraction_rules := [],
    post_processing_rules := [], default_fields := [], skip_patterns := [] }

/-- C1 (code behaviour at the failing input): after
`merge_with_parent`, the child's merged rule list contains exactly one rule
named `mapping_poe` — but it is the parent's rule (priority 100), not the
child's (priority 50): the filter drops the child's same-named rule and keeps
the parent's, contradicting the claim (and the method's own
"child rules override" comment). -/
theorem c1_merge_keeps_parent_rule :
    (mergeWithParent childProfilePoe parentProfilePoe).table_detection_rules.map
        (fun r => (r.name, r.priority)) = [("mapping_poe", 100)] ∧
    childProfilePoe.table_detection_rules.map (fun r => (r.name, r.priority)) =
      [("mapping_poe", 50)] := by
  constructor <;> rfl

/- ### Stable sort lemmas for rule evaluation (supporting claim C9) -/

def ruleDescRel (a b : ExtractionRule) : Prop := b.priority ≤ a.priority

theorem mem_orderedInsertR (a x : ExtractionRule) :
    ∀ l, x ∈ orderedInsertR a l ↔ x = a ∨ x ∈ l := by
  intro l
  induction l with
  | nil => simp [orderedInsertR]
  | cons b bs ih =>
    by_cases hb : b.priority ≤ a.priority
    · simp only [orderedInsertR, if_pos hb, List.mem_cons]
    · simp only [orderedInsertR, if_neg hb, List.mem_cons, ih]
      tauto

theorem pairwise_orderedInsertR (a : ExtractionRule) :
    ∀ l, l.Pairwise ruleDescRel → (orderedInsertR a l).Pairwise ruleDescRel := by
  intro l
  induction l with
  | nil => intro _; simp [orderedInsertR, ruleDescRel]
  | cons b bs ih =>
    intro hs
    rw [List.pairwise_cons] at hs
    by_cases hb : b.priority ≤ a.priority
    · simp only [orderedInsertR, if_pos hb]
      refine List.Pairwise.cons ?_ (List.pairwise_cons.mpr hs)
      intro x hx
      rcases List.mem_cons.mp hx with rfl | hx2
      · exact hb
      · exact le_trans (hs.1 x hx2) hb
    · simp only [orderedInsertR, if_neg hb]
      refine List.Pairwise.cons ?_ (ih hs.2)
      intro x hx
      rcases (mem_orderedInsertR a x bs).mp hx with rfl | hx2
      · exact le_of_not_le hb
      · exact hs.1 x hx2

theorem pairwise_sortRulesDesc (l : List ExtractionRule) :
    (sortRulesDesc l).Pairwise ruleDescRel := by
  induction l with
  | nil => simp [sortRulesDesc]
  | cons a bs ih => exact pairwise_orderedInsertR a (sortRulesDesc bs) ih

theorem orderedInsertR_of_all_le (a : ExtractionRule) :
    ∀ l, (∀ x ∈ l, x.priority ≤ a.priority) → orderedInsertR a l = a :: l := by
  intro l hall
  cases l with
  | nil => rfl
  | cons b bs => simp [orderedInsertR, hall b (by simp)]

theorem filter_orderedInsertR (q : ExtractionRule → Bool) (a : ExtractionRule) :
    ∀ l, l.Pairwise ruleDescRel →
      (orderedInsertR a l).filter q =
        if q a then orderedInsertR a (l.filter q) else l.filter q := by
  intro l
  induction l with
  | nil =>
    intro _
    cases hq : q a <;> simp [orderedInsertR, hq]
  | cons b bs ih =>
    intro hs
    rw [List.pairwise_cons] at hs
    by_cases hb : b.priority ≤ a.priority
    · simp only [orderedInsertR, if_pos hb]
      cases hq : q a <;> cases hqb : q b
      · simp [List.filter_cons, hq, hqb]
      · simp [List.filter_cons, hq, hqb]
      · have hall : ∀ x ∈ bs.filter q, x.priority ≤ a.priority := by
          intro x hx
          exact le_trans (hs.1 x (List.mem_of_mem_filter hx)) hb
        simp [List.filter_cons, hq, hqb, orderedInsertR_of_all_le a (bs.filter q) hall]
      · simp [List.filter_cons, hq, hqb, orderedInsertR, hb]
    · simp only [orderedInsertR, if_neg hb]
      cases hqb : q b
      · cases hq : q a <;>
          simp [List.filter_cons, hqb, hq, ih hs.2]
      · cases hq : q a <;>
          simp [List.filter_cons, hqb, hq, ih hs.2, orderedInsertR, hb]

theorem filter_sortRulesDesc (q : ExtractionRule → Bool) (l : List ExtractionRule) :
    (sortRulesDesc l).filter q = sortRulesDesc (l.filter q) := by
  induction l with
  | nil => rfl
  | cons a bs ih =>
    show (orderedInsertR a (sortRulesDesc bs)).filter q = sortRulesDesc ((a :: bs).filter q)
    rw [filter_orderedInsertR q a (sortRulesDesc bs) (pairwise_sortRulesDesc bs), ih]
    cases hq : q a <;> simp [List.filter_cons, hq, sortRulesDesc]

def ruleCompiles (r : ExtractionRule) : Bool := r.pattern.isSome

theorem evalDetectRules_filter (tl : List Char) :
    ∀ l, evalDetectRules l tl = evalDetectRules (l.filter ruleCompiles) tl := by
  intro l
  induction l with
  | nil => rfl
  | cons r rest ih =>
    cases hp : r.pattern with
    | none =>
      have hc : ruleCompiles r = false := by simp [ruleCompiles, hp]
      cases he : r.enabled <;>
        simp [evalDetectRules, List.filter_cons, he, hp, hc, ih]
    | some m =>
      have hc : ruleCompiles r = true := by simp [ruleCompiles, hp]
      cases he : r.enabled
      · simp [evalDetectRules, List.filter_cons, he, hp, hc, ih]
      · cases hm : m tl <;>
          simp [evalDetectRules, List.filter_cons, he, hp, hc, hm, ih]

theorem evalMapRules_filter (pl : List Char) :
    ∀ l, evalMapRules l pl = evalMapRules (l.filter ruleCompiles) pl := by
  intro l
  induction l with
  | nil => rfl
  | cons r rest ih =>
    cases hp : r.pattern with
    | none =>
      have hc : ruleCompiles r = false := by simp [ruleCompiles, hp]
      cases he : r.enabled <;>
        simp [evalMapRules, List.filter_cons, he, hp, hc, ih]
    | some m =>
      have hc : ruleCompiles r = true := by simp [ruleCompiles, hp]
      cases he : r.enabled
      · simp [evalMapRules, List.filter_cons, he, hp, hc, ih]
      · cases hm : m pl
        · simp [evalMapRules, List.filter_cons, he, hp, hc, hm, ih]
        · cases ha : decide (r.action = "map_to") <;>
            simp [evalMapRules, List.filter_cons, he, hp, hc, hm, ha, ih]

theorem filter_erase_bad (pre post : List ExtractionRule) (r : ExtractionRule)
    (hr : r.pattern = none) :
    (pre ++ r :: post).filter ruleCompiles = (pre ++ post).filter ruleCompiles := by
  have hc : ruleCompiles r = false := by simp [ruleCompiles, hr]
  simp [List.filter_append, List.filter_cons, hc]

theorem evalDetectRules_sorted_erase (pre post : List ExtractionRule)
    (r : ExtractionRule) (hr : r.pattern = none) (tl : List Char) :
    evalDetectRules (sortRulesDesc (pre ++ r :: post)) tl =
      evalDetectRules (sortRulesDesc (pre ++ post)) tl := by
  rw [evalDetectRules_filter tl, filter_sortRulesDesc, filter_erase_bad pre post r hr,
    ← filter_sortRulesDesc, ← evalDetectRules_filter tl]

theorem evalMapRules_sorted_erase (pre post : List ExtractionRule)
    (r : ExtractionRule) (hr : r.pattern = none) (pl : List Char) :
    evalMapRules (sortRulesDesc (pre ++ r :: post)) pl =
      evalMapRules (sortRulesDesc (pre ++ post)) pl := by
  rw [evalMapRules_filter pl, filter_sortRulesDesc, filter_erase_bad pre post r hr,
    ← filter_sortRulesDesc, ← evalMapRules_filter pl]

/-- C9: a rule whose regex does not compile (`pattern = none`, the
`re.error` case) is skipped by both `_normalize_param_name` and
`_detect_table_type_with_rules` — whether it sits in the profile's rule list
or the global rule list, the result on every input equals the result with
that rule removed, and evaluation stays a total function (no exception
escapes). -/
theorem c9_malformed_rule_skipped (P : ProductProfile)
    (G pre post : List ExtractionRule) (r : ExtractionRule)
    (hr : r.pattern = none) (text param : String) :
    (detectTableTypeWithRules
        (some { P with table_detection_rules := pre ++ r :: post }) G text =
      detectTableTypeWithRules
        (some { P with table_detection_rules := pre ++ post }) G text) ∧
    (detectTableTypeWithRules (some P) (pre ++ r :: post) text =
      detectTableTypeWithRules (some P) (pre ++ post) text) ∧
    (normalizeParamNameU
        (some { P with param_mapping_rules := pre ++ r :: post }) G param =
      normalizeParamNameU
        (some { P with param_mapping_rules := pre ++ post }) G param) ∧
    (normalizeParamNameU (some P) (pre ++ r :: post) param =
      normalizeParamNameU (some P) (pre ++ post) param) := by
  refine ⟨?_, ?_, ?_, ?_⟩
  · simp only [detectTableTypeWithRules]
    rw [evalDetectRules_sorted_erase pre post r hr]
  · simp only [detectTableTypeWithRules]
    rw [evalDetectRules_sorted_erase pre post r hr]
  · simp only [normalizeParamNameU]
    rw [evalMapRules_sorted_erase pre post r hr]
  · simp only [normalizeParamNameU]
    rw [evalMapRules_sorted_erase pre post r hr]

/-- Witness for C9 at a concrete profile with one malformed rule between two
live rules. -/
theorem c9_malformed_rule_skipped_witness :
    (detectTableTypeWithRules
        (some { parentProfilePoe with table_detection_rules :=
          [{ name := "good1",
             pattern := some (fun tl => containsSub "vlan".data tl),
             rule_type := "table_detection", action := "extract",
             params := [("extractor", "software")], priority := 90, enabled := true }] ++
          { name := "bad", pattern := none, rule_type := "table_detection",
            action := "extract", params := [], priority := 95, enabled := true } ::
          [{ name := "good2",
             pattern := some (fun tl => containsSub "poe".data tl),
             rule_type := "table_detection", action := "extract",
             params := [("extractor", "poe_power")], priority := 80, enabled := true }] })
        [] "Total PoE power table" =
      detectTableTypeWithRules
        (some { parentProfilePoe with table_detection_rules :=
          [{ name := "good1",
             pattern := some (fun tl => containsSub "vlan".data tl),
             rule_type := "table_detection", action := "extract",
             params := [("extractor", "software")], priority := 90, enabled := true }] ++
          [{ name := "good2",
             pattern := some (fun tl => containsSub "poe".data tl),
             rule_type := "table_detection", action := "extract",
             params := [("extractor", "poe_power")], priority := 80, enabled := true }] })
        [] "Total PoE power table") ∧
    (normalizeParamNameU (some parentProfilePoe)
        ({ name := "bad", pattern := none, rule_type := "param_mapping",
           action := "map_to", params := [("target", "X")], priority := 95,
           enabled := true } :: []) "weight" =
      normalizeParamNameU (some parentProfilePoe) [] "weight") := by
  constructor
  · exact (c9_malformed_rule_skipped parentProfilePoe []
      [{ name := "good1",
         pattern := some (fun tl => containsSub "vlan".data tl),
         rule_type := "table_detection", action := "extract",
         params := [("extractor", "software")], priority := 90, enabled := true }]
      [{ name := "good2",
         pattern := some (fun tl => containsSub "poe".data tl),
         rule_type := "table_detection", action := "extract",
         params := [("extractor", "poe_power")], priority := 80, enabled := true }]
      { name := "bad", pattern := none, rule_type := "table_detection",
        action := "extract", params := [], priority := 95, enabled := true }
      rfl "Total PoE power table" "x").1
  · exact (c9_malformed_rule_skipped parentProfilePoe [] [] []
      { name := "bad", pattern := none, rule_type := "param_mapping",
        action := "map_to", params := [("target", "X")], priority := 95,
        enabled := true }
      rfl "x" "weight").2.2.2

/- ### Pipeline lemmas (supporting claims C2 and C10) -/

theorem containsKey_mapEntries {β : Type} (g : String → β → β) (d : List (String × β))
    (k : String) : containsKey (mapEntries g d) k = containsKey d k := by
  simp [containsKey, dictGet?_mapEntries]

theorem mem_keys_of_containsKey {β : Type} (d : List (String × β)) (k : String)
    (h : containsKey d k = true) : k ∈ d.map Prod.fst := by
  induction d with
  | nil => simp [containsKey, dictGet?] at h
  | cons kv rest ih =>
    by_cases hk : kv.1 = k
    · simp [hk]
    · simp only [containsKey, dictGet?, if_neg hk] at h
      simp [ih h]

theorem nonEmpty_of_containsKey {β : Type} (d : List (String × β)) (k : String)
    (h : containsKey d k = true) : d.isEmpty = false := by
  cases d with
  | nil => simp [containsKey, dictGet?] at h
  | cons kv rest => rfl

theorem nonEmpty_of_dictGet? {β : Type} (d : List (String × β)) (k : String) (v : β)
    (h : dictGet? d k = some v) : d.isEmpty = false := by
  cases d with
  | nil => simp [dictGet?] at h
  | cons kv rest => rfl

/- Fragment accumulation monotonicity. -/

theorem containsKey_fragStep (acc : ModelMap × ModelMap) (e : String × Specs)
    (k : String) (h : containsKey acc.1 k = true) :
    containsKey (fragStep acc e).1 k = true := by
  unfold fragStep
  split
  · exact h
  · split
    · exact h
    · exact containsKey_dictSet acc.1 e.1 k _ h

theorem containsKey_fragFold (td : List (String × Specs)) :
    ∀ (acc : ModelMap × ModelMap) (k : String), containsKey acc.1 k = true →
      containsKey (td.foldl fragStep acc).1 k = true := by
  induction td with
  | nil => intro acc k h; exact h
  | cons e rest ih =>
    intro acc k h
    exact ih (fragStep acc e) k (containsKey_fragStep acc e k h)

theorem containsKey_tableStep (acc : ModelMap × ModelMap) (t : PTable) (k : String)
    (h : containsKey acc.1 k = true) : containsKey (tableStep acc t).1 k = true := by
  unfold tableStep
  cases hp : processTable t with
  | none => exact h
  | some td =>
    simp only []
    split
    · exact h
    · exact containsKey_fragFold td acc k h

theorem containsKey_tablesFold (tables : List PTable) :
    ∀ (acc : ModelMap × ModelMap) (k : String), containsKey acc.1 k = true →
      containsKey (tables.foldl tableStep acc).1 k = true := by
  induction tables with
  | nil => intro acc k h; exact h
  | cons t rest ih =>
    intro acc k h
    exact ih (tableStep acc t) k (containsKey_tableStep acc t k h)

theorem fragStep_adds (acc : ModelMap × ModelMap) (e : String × Specs)
    (hne : e.2.isEmpty = false) (hser : isSeriesKey e.1 = false) :
    containsKey (fragStep acc e).1 e.1 = true := by
  unfold fragStep
  rw [hne]
  simp only [Bool.false_eq_true, if_false, hser]
  simpa [containsKey] using congrArg Option.isSome (dictGet?_dictSet_self acc.1 e.1 _)

theorem fragFold_adds (td : List (String × Specs)) :
    ∀ (acc : ModelMap × ModelMap) (e : String × Specs), e ∈ td →
      e.2.isEmpty = false → isSeriesKey e.1 = false →
      containsKey (td.foldl fragStep acc).1 e.1 = true := by
  induction td with
  | nil => intro acc e he; simp at he
  | cons e0 rest ih =>
    intro acc e he hne hser
    rcases List.mem_cons.mp he with rfl | he2
    · exact containsKey_fragFold rest (fragStep acc e) e.1 (fragStep_adds acc e hne hser)
    · exact ih (fragStep acc e0) e he2 hne hser

theorem tablesFold_adds (tables : List PTable) :
    ∀ (acc : ModelMap × ModelMap) (t : PTable) (td : List (String × Specs))
      (e : String × Specs), t ∈ tables → processTable t = some td → e ∈ td →
      e.2.isEmpty = false → isSeriesKey e.1 = false →
      containsKey (tables.foldl tableStep acc).1 e.1 = true := by
  induction tables with
  | nil => intro acc t td e ht; simp at ht
  | cons t0 rest ih =>
    intro acc t td e ht hpt he hne hser
    rcases List.mem_cons.mp ht with rfl | ht2
    · have hstep : containsKey (tableStep acc t).1 e.1 = true := by
        unfold tableStep
        have htd : td.isEmpty = false := by
          cases td with
          | nil => simp at he
          | cons a b => rfl
        simp only [hpt, htd, Bool.false_eq_true, if_false]
        exact fragFold_adds td acc e he hne hser
      exact containsKey_tablesFold rest (tableStep acc t) e.1 hstep
    · exact ih (tableStep acc t0) t td e ht2 hpt he hne hser

/- Attach-stage lookups. -/

theorem lookup_condSet {β : Type} (c : Prop) [Decidable c] (s : List (String × β))
    (kd k : String) (v : β) (h : k ≠ kd) :
    dictGet? (if c then dictSet s kd v else s) k = dictGet? s k := by
  split
  · exact dictGet?_dictSet_ne s kd k v h
  · rfl

theorem lookup_condDel (s : Specs) (kd k : String) (h : k ≠ kd) :
    dictGet? (if containsKey s kd then dictDel s kd else s) k = dictGet? s k := by
  split
  · exact dictGet?_dictDel_ne s kd k h
  · rfl

theorem attachOne_url (url : String) (d : List (String × String)) (sf k : String)
    (s : Specs) : dictGet? (attachOne url d sf k s) "链接地址" = some (.s url) := by
  unfold attachOne
  rw [lookup_condSet _ _ _ _ _ (by decide)]
  cases hd : dictGet? d k
  · exact dictGet?_dictSet_self s _ _
  · rw [dictGet?_dictSet_ne _ _ _ _ (by decide)]
    exact dictGet?_dictSet_self s _ _

theorem attachOne_preserves (url : String) (d : List (String × String)) (sf k : String)
    (s : Specs) (k2 : String) (h1 : k2 ≠ "链接地址") (h2 : k2 ≠ "型号描述")
    (h3 : k2 ≠ "系列特性") :
    dictGet? (attachOne url d sf k s) k2 = dictGet? s k2 := by
  unfold attachOne
  rw [lookup_condSet _ _ _ _ _ h3]
  cases hd : dictGet? d k
  · exact dictGet?_dictSet_ne s _ _ _ h1
  · rw [dictGet?_dictSet_ne _ _ _ _ h2]
    exact dictGet?_dictSet_ne s _ _ _ h1

/- Post-stage lookups. -/

theorem lookup_s1Step (specs0 : Specs) (k : String) (h : k ≠ "1000Base-T端口数") :
    dictGet?
      (match dictGet? specs0 "1G端口数" with
       | some v =>
         if !(containsKey specs0 "1000Base-T端口数") then
           dictSet specs0 "1000Base-T端口数" v
         else specs0
       | none => specs0) k = dictGet? specs0 k := by
  cases hv : dictGet? specs0 "1G端口数"
  · rfl
  · exact lookup_condSet _ _ _ _ _ h

theorem postOne_preserves (m : String) (s : Specs) (k : String)
    (h1 : k ≠ "1000Base-T端口数") (h2 : k ≠ "1G端口数") (h3 : k ≠ "POE总功率")
    (h4 : k ≠ "POE总功率_AC") (h5 : k ≠ "POE总功率_DC") (h6 : k ≠ "交换机类型") :
    dictGet? (postOne m s) k = dictGet? s k := by
  unfold postOne
  rw [dictGet?_dictSet_ne _ _ _ _ h6, lookup_condDel _ _ _ h5, lookup_condDel _ _ _ h4,
    lookup_condSet _ _ _ _ _ h3, lookup_condDel _ _ _ h2, lookup_s1Step _ _ h1]

theorem postOne_has_type (m : String) (s : Specs) :
    ∃ ty, dictGet? (postOne m s) "交换机类型" = some ty := by
  unfold postOne
  exact ⟨_, dictGet?_dictSet_self _ _ _⟩

/- Series-merge lookups. -/

theorem updModelKeys_lookup (ad : ModelMap) (mk : List String) (specs : Specs)
    (k : String) :
    dictGet? (updModelKeys ad mk specs) k =
      (dictGet? ad k).map (fun s => if mk.contains k then dictUpdate s specs else s) := by
  unfold updModelKeys
  exact dictGet?_mapEntries _ ad k

theorem updModelKeys_untouched (ad : ModelMap) (mk : List String) (specs : Specs)
    (k : String) (hk : mk.contains k = false) :
    dictGet? (updModelKeys ad mk specs) k = dictGet? ad k := by
  rw [updModelKeys_lookup]
  cases hv : dictGet? ad k
  · rfl
  · simp only [Option.map_some', hk, Bool.false_eq_true, if_false]

theorem mergeStep_untouched (p : String) (mk : List String) (acc : ModelMap)
    (e : String × Specs) (k : String) (hk : mk.contains k = false) :
    dictGet? (mergeStep p mk acc e) k = dictGet? acc k := by
  unfold mergeStep
  split
  · exact updModelKeys_untouched acc mk e.2 k hk
  · split
    · exact updModelKeys_untouched acc mk e.2 k hk
    · split
      · exact updModelKeys_untouched acc mk e.2 k hk
      · rfl

theorem mergeFold_untouched (p : String) (mk : List String) (k : String)
    (hk : mk.contains k = false) :
    ∀ (sd : List (String × Specs)) (acc : ModelMap),
      dictGet? (sd.foldl (mergeStep p mk) acc) k = dictGet? acc k := by
  intro sd
  induction sd with
  | nil => intro acc; rfl
  | cons e rest ih =>
    intro acc
    rw [List.foldl_cons, ih, mergeStep_untouched p mk acc e k hk]

theorem contains_filter_startsAny (keys : List String) (k : String)
    (h : startsAny k mergePfxList = false) :
    (keys.filter (fun k2 => startsAny k2 mergePfxList)).contains k = false := by
  cases hc : (keys.filter (fun k2 => startsAny k2 mergePfxList)).contains k
  · rfl
  · exfalso
    have hm := List.mem_of_elem_eq_true hc
    have := List.of_mem_filter hm
    rw [h] at this
    exact Bool.false_ne_true this

theorem seriesMergeStage_untouched (ad sd : ModelMap) (k : String)
    (hk : startsAny k mergePfxList = false) :
    dictGet? (seriesMergeStage ad sd) k = dictGet? ad k := by
  unfold seriesMergeStage
  split
  · simp only []
    split
    · rfl
    · rename_i fm tail heq
      refine mergeFold_untouched _ _ k ?_ sd ad
      exact contains_filter_startsAny (ad.map Prod.fst) k hk
  · rfl

/-- C10: a table that passes the 200-character cut, classifies as `hardware`,
is not multi-model, and yields at least one normalized key/value pair through
the generic extractor, puts a top-level entry under the literal key
`"generic"` into the final mapping; that entry is treated as a model entry:
it carries the page-URL attribute `链接地址` and the computed `交换机类型`
attribute. -/
theorem c10_generic_key_is_model (tables : List PTable) (url : String)
    (descriptions : List (String × String)) (sf : String) (t : PTable)
    (headers : List String) (rows : List Row) (gspecs : Specs)
    (ht : t ∈ tables)
    (hlen : 200 ≤ t.text.data.length)
    (hdet : detectTableType t.text = "hardware")
    (hhr : parseTableStructure t = (headers, rows))
    (hhne : headers.isEmpty = false)
    (hrne : rows.isEmpty = false)
    (hnm : (decide (headers.length > 2) && isMultiModelTable headers) = false)
    (hgen : extractGenericTable headers rows = [("generic", gspecs)])
    (hg : gspecs.isEmpty = false) :
    ∃ s, dictGet? (extractAllTables tables url descriptions sf) "generic" = some s ∧
      dictGet? s "链接地址" = some (.s url) ∧
      ∃ ty, dictGet? s "交换机类型" = some ty := by
  have h200 : ¬ (t.text.data.length < 200) := by omega
  have h200b : ¬ (t.text.length < 200) := h200
  have hpt : processTable t = some [("generic", gspecs)] := by
    simp [processTable, hhr, hdet, hhne, hrne, hnm, hgen, h200, h200b]
  have hmem : containsKey (foldFragments tables).1 "generic" = true :=
    tablesFold_adds tables ([], []) t [("generic", gspecs)] ("generic", gspecs)
      ht hpt (by simp) hg (show isSeriesKey "generic" = false by decide)
  obtain ⟨s0, hs0⟩ : ∃ s0, dictGet? (foldFragments tables).1 "generic" = some s0 := by
    cases hq : dictGet? (foldFragments tables).1 "generic"
    · rw [containsKey, hq] at hmem
      simp at hmem
    · exact ⟨_, rfl⟩
  have hat : dictGet? (attachStage (foldFragments tables).1 url descriptions sf)
      "generic" = some (attachOne url descriptions sf "generic" s0) := by
    unfold attachStage
    rw [dictGet?_mapEntries, hs0]
    rfl
  have hmerged : dictGet?
      (seriesMergeStage (attachStage (foldFragments tables).1 url descriptions sf)
        (foldFragments tables).2) "generic" =
      some (attachOne url descriptions sf "generic" s0) := by
    rw [seriesMergeStage_untouched _ _ _ (by decide)]
    exact hat
  have hfinal : dictGet? (extractAllTables tables url descriptions sf) "generic" =
      some (postOne "generic" (attachOne url descriptions sf "generic" s0)) := by
    unfold extractAllTables postStage
    rw [dictGet?_mapEntries, hmerged]
    rfl
  refine ⟨_, hfinal, ?_, postOne_has_type "generic" _⟩
  rw [postOne_preserves _ _ _ (by decide) (by decide) (by decide) (by decide)
    (by decide) (by decide)]
  exact attachOne_url url descriptions sf "generic" s0

/-- 200 filler characters standing for a table's visible text that contains
no classification keyword. -/
def zpad200 : String := String.mk (List.replicate 200 'z')

/-- A concrete plain two-column key/value table used as witness input. -/
def c10Table : PTable :=
  { text := zpad200
    headerCells := ["Param", "Val"]
    dataRows := [[⟨"Weight", 1⟩, ⟨"5kg", 1⟩]] }

/-- Witness for C10 at a one-table page. -/
theorem c10_generic_key_is_model_witness :
    ∃ s, dictGet? (extractAllTables [c10Table] "http://u" [] "") "generic" = some s ∧
      dictGet? s "链接地址" = some (.s "http://u") ∧
      ∃ ty, dictGet? s "交换机类型" = some ty :=
  c10_generic_key_is_model [c10Table] "http://u" [] "" c10Table
    ["Param", "Val"] [[("Param", "Weight"), ("Val", "5kg")]]
    [("重量", SpecValue.s "5kg")]
    (by simp) (by decide) (by decide) (by decide) (by decide) (by decide)
    (by decide) (by decide) (by decide)

theorem exists_of_containsKey {β : Type} (d : List (String × β)) (k : String)
    (h : containsKey d k = true) : ∃ v, dictGet? d k = some v := by
  cases hq : dictGet? d k
  · rw [containsKey, hq] at h
    simp at h
  · exact ⟨_, rfl⟩

theorem mergeStep_protocols (p : String) (mk : List String) (acc : ModelMap)
    (specsP : Specs) :
    mergeStep p mk acc ("Protocols", specsP) = updModelKeys acc mk specsP := by
  unfold mergeStep
  split
  · rfl
  · simp [show strSub "Protocols" "Protocols" = true from by decide]

theorem updModelKeys_writes (acc : ModelMap) (mk : List String) (specsP : Specs)
    (k : String) (v : SpecValue) (s0 : Specs) (hk : mk.contains k = true)
    (hs0 : dictGet? acc k = some s0) (hnd : (specsP.map Prod.fst).Nodup)
    (hv : dictGet? specsP "支持协议" = some v) :
    ∃ s, dictGet? (updModelKeys acc mk specsP) k = some s ∧
      dictGet? s "支持协议" = some v := by
  rw [updModelKeys_lookup, hs0]
  simp only [Option.map_some', hk, if_true]
  exact ⟨_, rfl, dictGet?_dictUpdate_mem s0 specsP _ v hnd hv⟩

theorem containsKey_mergeStep (p : String) (mk : List String) (acc : ModelMap)
    (e : String × Specs) (k : String) :
    containsKey (mergeStep p mk acc e) k = containsKey acc k := by
  unfold mergeStep
  split
  · exact containsKey_mapEntries _ acc k
  · split
    · exact containsKey_mapEntries _ acc k
    · split
      · exact containsKey_mapEntries _ acc k
      · rfl

theorem mergeStep_keeps (p : String) (mk : List String) (acc : ModelMap)
    (e : String × Specs) (k : String) (v : SpecValue)
    (hlack : dictGet? e.2 "支持协议" = none)
    (hprop : ∃ s, dictGet? acc k = some s ∧ dictGet? s "支持协议" = some v) :
    ∃ s, dictGet? (mergeStep p mk acc e) k = some s ∧
      dictGet? s "支持协议" = some v := by
  obtain ⟨s, hs, hv⟩ := hprop
  have hupd : ∃ s2, dictGet? (updModelKeys acc mk e.2) k = some s2 ∧
      dictGet? s2 "支持协议" = some v := by
    rw [updModelKeys_lookup, hs]
    cases hc : mk.contains k
    · exact ⟨s, by simp [hc], hv⟩
    · refine ⟨dictUpdate s e.2, by simp [hc], ?_⟩
      rw [dictGet?_dictUpdate_notMem s e.2 _ (dictGet?_none_of_not_mem e.2 _ hlack)]
      exact hv
  unfold mergeStep
  split
  · exact hupd
  · split
    · exact hupd
    · split
      · exact hupd
      · exact ⟨s, hs, hv⟩

theorem mergeFold_keepsAll (p : String) (mk : List String) (k : String) (v : SpecValue) :
    ∀ (rest : List (String × Specs)) (acc : ModelMap),
      (∀ e ∈ rest, dictGet? e.2 "支持协议" = none) →
      (∃ s, dictGet? acc k = some s ∧ dictGet? s "支持协议" = some v) →
      ∃ s, dictGet? (rest.foldl (mergeStep p mk) acc) k = some s ∧
        dictGet? s "支持协议" = some v := by
  intro rest
  induction rest with
  | nil => intro acc _ hprop; exact hprop
  | cons e tail ih =>
    intro acc hlack hprop
    rw [List.foldl_cons]
    exact ih (mergeStep p mk acc e)
      (fun e2 he2 => hlack e2 (by simp [he2]))
      (mergeStep_keeps p mk acc e k v (hlack e (by simp)) hprop)

theorem mergeFold_protocols (p : String) (mk : List String) (k : String)
    (v : SpecValue) (hk : mk.contains k = true) :
    ∀ (sd : List (String × Specs)) (acc : ModelMap),
      (sd.map Prod.fst).Nodup →
      (∀ e ∈ sd, e.1 ≠ "Protocols" → dictGet? e.2 "支持协议" = none) →
      containsKey acc k = true →
      ∀ specsP, dictGet? sd "Protocols" = some specsP →
        (specsP.map Prod.fst).Nodup → dictGet? specsP "支持协议" = some v →
        ∃ s, dictGet? (sd.foldl (mergeStep p mk) acc) k = some s ∧
          dictGet? s "支持协议" = some v := by
  intro sd
  induction sd with
  | nil =>
    intro acc _ _ _ specsP hsp
    simp [dictGet?] at hsp
  | cons e rest ih =>
    intro acc hnd hlack hacc specsP hsp hpnd hpv
    obtain ⟨ek, es⟩ := e
    simp only [List.map_cons, List.nodup_cons] at hnd
    by_cases he : ek = "Protocols"
    · subst he
      have hes : es = specsP := by simpa [dictGet?] using hsp
      subst hes
      rw [List.foldl_cons, mergeStep_protocols]
      obtain ⟨s0, hs0⟩ := exists_of_containsKey acc k hacc
      refine mergeFold_keepsAll p mk k v rest (updModelKeys acc mk es) ?_
        (updModelKeys_writes acc mk es k v s0 hk hs0 hpnd hpv)
      intro e2 he2
      by_cases he2p : e2.1 = "Protocols"
      · exfalso
        exact hnd.1 (he2p ▸ List.mem_map_of_mem Prod.fst he2)
      · exact hlack e2 (by simp [he2]) he2p
    · rw [List.foldl_cons]
      refine ih (mergeStep p mk acc (ek, es)) hnd.2
        (fun e2 he2 => hlack e2 (by simp [he2]))
        (by rw [containsKey_mergeStep]; exact hacc)
        specsP (by simpa [dictGet?, he] using hsp) hpnd hpv

/-- C2 (amended): for every model key `A` of the accumulated page data whose
name starts with one of the recognized series prefixes, a parked protocols
fragment keyed `"Protocols"` carrying the supported-protocols attribute is
merged into `A`'s entry of the final mapping; model keys outside the
recognized prefix list receive nothing (see the counterexample). -/
theorem c2_protocols_merge_into_recognized_models (tables : List PTable)
    (url : String) (descriptions : List (String × String)) (sf : String)
    (A : String) (specsP : Specs) (v : SpecValue)
    (hA : containsKey (foldFragments tables).1 A = true)
    (hAp : startsAny A mergePfxList = true)
    (hnd : (((foldFragments tables).2).map Prod.fst).Nodup)
    (hsp : dictGet? (foldFragments tables).2 "Protocols" = some specsP)
    (hpnd : (specsP.map Prod.fst).Nodup)
    (hpv : dictGet? specsP "支持协议" = some v)
    (hlack : ∀ e ∈ (foldFragments tables).2, e.1 ≠ "Protocols" →
      dictGet? e.2 "支持协议" = none) :
    ∃ s, dictGet? (extractAllTables tables url descriptions sf) A = some s ∧
      dictGet? s "支持协议" = some v := by
  have hA2 : containsKey
      (attachStage (foldFragments tables).1 url descriptions sf) A = true := by
    unfold attachStage
    rw [containsKey_mapEntries]
    exact hA
  have hsdne : ((foldFragments tables).2).isEmpty = false :=
    nonEmpty_of_dictGet? _ "Protocols" specsP hsp
  have hadne : (attachStage (foldFragments tables).1 url descriptions sf).isEmpty
      = false := nonEmpty_of_containsKey _ A hA2
  have hmk : (((attachStage (foldFragments tables).1 url descriptions sf).map
      Prod.fst).filter (fun k2 => startsAny k2 mergePfxList)).contains A = true := by
    apply List.elem_eq_true_of_mem
    apply List.mem_filter_of_mem
    · exact mem_keys_of_containsKey _ A hA2
    · exact hAp
  have hmerged : ∃ s, dictGet?
      (seriesMergeStage (attachStage (foldFragments tables).1 url descriptions sf)
        (foldFragments tables).2) A = some s ∧
      dictGet? s "支持协议" = some v := by
    unfold seriesMergeStage
    rw [if_pos (by simp [hsdne, hadne])]
    simp only []
    cases hflt : ((attachStage (foldFragments tables).1 url descriptions sf).map
        Prod.fst).filter (fun k2 => startsAny k2 mergePfxList) with
    | nil => rw [hflt] at hmk; simp [List.contains] at hmk
    | cons fm tail =>
      simp only []
      refine mergeFold_protocols _ _ A v ?_ (foldFragments tables).2 _ hnd hlack hA2
        specsP hsp hpnd hpv
      rw [hflt] at hmk
      exact hmk
  obtain ⟨s, hs, hsv⟩ := hmerged
  refine ⟨postOne A s, ?_, ?_⟩
  · unfold extractAllTables postStage
    rw [dictGet?_mapEntries, hs]
    rfl
  · rw [postOne_preserves _ _ _ (by decide) (by decide) (by decide) (by decide)
      (by decide) (by decide)]
    exact hsv

/-- A multi-model hardware table whose model columns use a recognized series
prefix (`S5130`). -/
def c2HwTable : PTable :=
  { text := zpad200
    headerCells := ["Feature", "S5130-28P", "S5130-52P"]
    dataRows := [[⟨"Weight", 1⟩, ⟨"1kg", 1⟩, ⟨"2kg", 1⟩]] }

/-- A protocols-compliance table (its text mentions organization and IEEE). -/
def c2ProtoTable : PTable :=
  { text := "organization ieee " ++ zpad200
    headerCells := ["Organization", "Standards"]
    dataRows := [[⟨"IEEE", 1⟩, ⟨"802.1x", 1⟩]] }

/-- Witness for C2's amended theorem: with recognized-prefix models the
protocols attribute does reach the model entry. -/
theorem c2_protocols_merge_into_recognized_models_witness :
    ∃ s, dictGet? (extractAllTables [c2HwTable, c2ProtoTable] "http://u" [] "")
        "S5130-28P" = some s ∧
      dictGet? s "支持协议" = some (.s "IEEE: 802.1x") :=
  c2_protocols_merge_into_recognized_models [c2HwTable, c2ProtoTable] "http://u"
    [] "" "S5130-28P" [("支持协议", SpecValue.s "IEEE: 802.1x")]
    (SpecValue.s "IEEE: 802.1x")
    (by decide) (by decide) (by decide) (by decide) (by decide) (by decide)
    (by decide)

/-- The same hardware table with model names outside the recognized prefix
list. -/
def c2BadHwTable : PTable :=
  { text := zpad200
    headerCells := ["Feature", "S9999-A", "S9999-B"]
    dataRows := [[⟨"Weight", 1⟩, ⟨"1kg", 1⟩, ⟨"2kg", 1⟩]] }

/-- Counterexample for C2 as stated: with arbitrary model names `S9999-A`,
`S9999-B` the hardware fragment and the parked `"Protocols"` fragment are
both produced, yet the final mapping carries no `支持协议` attribute under
either model — the merge loop only feeds models whose names start with a
hard-coded prefix. -/
theorem c2_counterexample :
    containsKey (foldFragments [c2BadHwTable, c2ProtoTable]).1 "S9999-A" = true ∧
    containsKey (foldFragments [c2BadHwTable, c2ProtoTable]).1 "S9999-B" = true ∧
    dictGet? (foldFragments [c2BadHwTable, c2ProtoTable]).2 "Protocols" =
      some [("支持协议", SpecValue.s "IEEE: 802.1x")] ∧
    extractAllTables [c2BadHwTable, c2ProtoTable] "http://u" [] "" =
      [("S9999-A",
        [("重量", SpecValue.s "1kg"), ("链接地址", SpecValue.s "http://u"),
         ("交换机类型", SpecValue.s "盒式交换机")]),
       ("S9999-B",
        [("重量", SpecValue.s "2kg"), ("链接地址", SpecValue.s "http://u"),
         ("交换机类型", SpecValue.s "盒式交换机")])] := by
  refine ⟨by decide, by decide, by decide, by decide⟩

/-- Witness for C6 at the header seen on real pages. -/
theorem c6_series_keys_never_collide_witness :
    (softwareSeriesKeyS "S5130S-EI Series Switches" ==
      performanceSeriesKeyS "S5130S-EI Series Switches") = false :=
  c6_series_keys_never_collide "S5130S-EI Series Switches"
